import Mathlib

/-!
# xk6-kinesis: synchronous and asynchronous Kinesis clients

A shallow embedding of `kinesis/client.go` (the `SyncClient` and `AsyncClient`
put operations and `makeHandledPromise`) and of the root package's
`kinesis.go` (`Client.PutRecord`, `Client.PutRecords`).

The code is stateful in three places, each made explicit here:

* the transport (`client` interface) may be a stateful stub; every invocation
  is recorded in `Transport.calls`;
* the JavaScript runtime owns the promises (`World.promises`);
* the VU event loop owns a queue of callbacks and a count of registered,
  not yet enqueued callbacks (`EventLoop`).

Goroutines started with `go func() { ... }()` are kept in `World.goroutines`
until a scheduler step runs them.
-/

namespace Kinesis

/-! ## Request and response shapes of the wrapped service -/

/-- Modelled from the spec: the typed single-record request
(`kinesis.PutRecordInput` of the AWS SDK, declared outside this repository),
with the fields spec section 3 lists. A byte sequence is a list of byte values,
a `*string` is an optional string; the zero value is empty or `none`. -/
structure PutRecordInput where
  Data : List Nat
  PartitionKey : Option String
  StreamName : Option String
  ExplicitHashKey : Option String
  SequenceNumberForOrdering : Option String
  deriving DecidableEq, Repr

/-- Modelled from the spec: one entry of a batch request: the fields of the
single-record request minus `StreamName` (spec section 6). The type is
declared in the AWS SDK, outside this repository. -/
structure PutRecordsRequestEntry where
  Data : List Nat
  PartitionKey : Option String
  ExplicitHashKey : Option String
  SequenceNumberForOrdering : Option String
  deriving DecidableEq, Repr

/-- Modelled from the spec: the typed batch request
(`kinesis.PutRecordsInput` of the AWS SDK). -/
structure PutRecordsInput where
  Records : List PutRecordsRequestEntry
  StreamName : Option String
  deriving DecidableEq, Repr

/-- Modelled from the spec: the response of a single-record write, carrying the
assigned sequence number (`kinesis.PutRecordOutput`). -/
structure PutRecordOutput where
  SequenceNumber : Option String
  deriving DecidableEq, Repr

/-- Modelled from the spec: the response of a batch write, carrying the
failed-record count (`kinesis.PutRecordsOutput`). -/
structure PutRecordsOutput where
  FailedRecordCount : Option Int
  deriving DecidableEq, Repr

/-- The zero value `var kinesisPutRecordInput kinesis.PutRecordInput`. -/
def PutRecordInput.zero : PutRecordInput :=
  { Data := [], PartitionKey := none, StreamName := none,
    ExplicitHashKey := none, SequenceNumberForOrdering := none }

/-- The zero value of a batch entry. -/
def PutRecordsRequestEntry.zero : PutRecordsRequestEntry :=
  { Data := [], PartitionKey := none, ExplicitHashKey := none,
    SequenceNumberForOrdering := none }

/-- The zero value `var kinesisPutRecordsInput kinesis.PutRecordsInput`. -/
def PutRecordsInput.zero : PutRecordsInput :=
  { Records := [], StreamName := none }

/-- A Go `interface{}` value as the clients return it or hand it to a promise:
the nil interface, a `*kinesis.PutRecordOutput` or `*kinesis.PutRecordsOutput`
(the pointer itself may be nil), or an `error`. -/
inductive Any (ε : Type) where
  | nil
  | putRecordOutput (o : Option PutRecordOutput)
  | putRecordsOutput (o : Option PutRecordsOutput)
  | error (e : ε)
  deriving DecidableEq, Repr

/-! ## The decoder and the transport, as the clients see them -/

/-- The two uses of `mapstructure.Decode(input, &out)` in the clients: the
target is filled in place, starting from the value passed in, and an error or
nil is returned. The library is outside the repository; the clients are
embedded for an arbitrary decoder. -/
structure Decoder (ι ε : Type) where
  putRecordInput : ι → PutRecordInput → PutRecordInput × Option ε
  putRecordsInput : ι → PutRecordsInput → PutRecordsInput × Option ε

/-- The `client` interface: the supported subset of the AWS SDK Kinesis client.
An implementation may keep state `σ` (a mock, a connection); each method
returns the Go pair `(output, error)` and the next state. -/
structure client (σ ε : Type) where
  PutRecord : PutRecordInput → σ → (Option PutRecordOutput × Option ε) × σ
  PutRecords : PutRecordsInput → σ → (Option PutRecordsOutput × Option ε) × σ

/-- One invocation of the transport, with the request it received. -/
inductive Call where
  | PutRecord (req : PutRecordInput)
  | PutRecords (req : PutRecordsInput)
  deriving DecidableEq, Repr

/-- The transport side of the world: the state of the implementation and the
invocations made so far, oldest first. -/
structure Transport (σ : Type) where
  stub : σ
  calls : List Call

/-- The call `c.client.PutRecord(context.TODO(), &req)`. -/
def client.invokePutRecord {σ ε : Type} (c : client σ ε) (req : PutRecordInput)
    (t : Transport σ) : (Option PutRecordOutput × Option ε) × Transport σ :=
  let r := c.PutRecord req t.stub
  (r.1, { stub := r.2, calls := t.calls ++ [Call.PutRecord req] })

/-- The call `c.client.PutRecords(context.TODO(), &req)`. -/
def client.invokePutRecords {σ ε : Type} (c : client σ ε) (req : PutRecordsInput)
    (t : Transport σ) : (Option PutRecordsOutput × Option ε) × Transport σ :=
  let r := c.PutRecords req t.stub
  (r.1, { stub := r.2, calls := t.calls ++ [Call.PutRecords req] })

/-! ## kinesis/client.go: the synchronous client -/

/-- The method `SyncClient.PutRecord`: decode; on a decode error return
`(nil, err)`; otherwise call the transport and return its pair. -/
def SyncClient.PutRecord {ι σ ε : Type} (D : Decoder ι ε) (c : client σ ε)
    (putRecordInput : ι) (t : Transport σ) : (Any ε × Option ε) × Transport σ :=
  match D.putRecordInput putRecordInput PutRecordInput.zero with
  | (_, some err) => ((Any.nil, some err), t)
  | (kinesisPutRecordInput, none) =>
    let r := c.invokePutRecord kinesisPutRecordInput t
    ((Any.putRecordOutput r.1.1, r.1.2), r.2)

/-- The method `SyncClient.PutRecords`. -/
def SyncClient.PutRecords {ι σ ε : Type} (D : Decoder ι ε) (c : client σ ε)
    (putRecordsInput : ι) (t : Transport σ) : (Any ε × Option ε) × Transport σ :=
  match D.putRecordsInput putRecordsInput PutRecordsInput.zero with
  | (_, some err) => ((Any.nil, some err), t)
  | (kinesisPutRecordsInput, none) =>
    let r := c.invokePutRecords kinesisPutRecordsInput t
    ((Any.putRecordsOutput r.1.1, r.1.2), r.2)

/-! ## kinesis.go (root package): the first client -/

/-- The method `Client.PutRecord` of the root package: the result of
`mapstructure.Decode` is assigned to `_`, the transport is called with whatever
the decoder left in the request, and only the transport error is returned. -/
def Client.PutRecord {ι σ ε : Type} (D : Decoder ι ε) (c : client σ ε)
    (putRecordInput : ι) (t : Transport σ) : Option ε × Transport σ :=
  let kinesisPutRecordInput := (D.putRecordInput putRecordInput PutRecordInput.zero).1
  let r := c.invokePutRecord kinesisPutRecordInput t
  (r.1.2, r.2)

/-- The method `Client.PutRecords` of the root package. -/
def Client.PutRecords {ι σ ε : Type} (D : Decoder ι ε) (c : client σ ε)
    (putRecordsInput : ι) (t : Transport σ) : Option ε × Transport σ :=
  let kinesisPutRecordsInput := (D.putRecordsInput putRecordsInput PutRecordsInput.zero).1
  let r := c.invokePutRecords kinesisPutRecordsInput t
  (r.1.2, r.2)

/-! ## The runtime bridge: promises and the VU event loop -/

/-- A promise of the JavaScript runtime (`goja.Promise`): pending, or settled
with its result. -/
inductive Promise (ε : Type) where
  | pending
  | fulfilled (result : Any ε)
  | rejected (result : Any ε)
  deriving DecidableEq, Repr

/-- The two closures `func() error { resolve(i); return nil }` and
`func() error { reject(i); return nil }` that `makeHandledPromise` hands to the
registered callback, for the promise with the given identity. -/
inductive Callback (ε : Type) where
  | resolve (promise : Nat) (i : Any ε)
  | reject (promise : Nat) (i : Any ε)
  deriving DecidableEq, Repr

/-- The promise a callback closure settles. -/
def Callback.promise {ε : Type} : Callback ε → Nat
  | Callback.resolve p _ => p
  | Callback.reject p _ => p

/-- Modelled from the spec: the runtime bridge of spec sections 4.5 and 9 (the
k6 event loop, outside this repository): a queue of enqueued closures owned by
the runtime's logical thread, and the number of callbacks that were registered
and are still to be enqueued. -/
structure EventLoop (ε : Type) where
  registeredCallbacks : Nat
  queue : List (Callback ε)

/-- The closure of a `go func() { ... }()` statement of the asynchronous
client: which method started it, the input it captured, and the promise whose
handles it captured. -/
inductive Goroutine (ι : Type) where
  | putRecord (promise : Nat) (putRecordInput : ι)
  | putRecords (promise : Nat) (putRecordsInput : ι)
  deriving DecidableEq, Repr

/-- The promise whose handles a goroutine captured. -/
def Goroutine.promise {ι : Type} : Goroutine ι → Nat
  | Goroutine.putRecord p _ => p
  | Goroutine.putRecords p _ => p

/-- Everything the asynchronous client touches: the transport, the promises
of the runtime (a promise is identified by its position), the event loop of
the VU, and the goroutines started and not yet run. -/
structure World (ι σ ε : Type) where
  transport : Transport σ
  promises : List (Promise ε)
  loop : EventLoop ε
  goroutines : List (Goroutine ι)

/-- A fresh VU with a transport in state `s`: nothing called, no promise, an
idle event loop, no goroutine. -/
def World.init {ι σ ε : Type} (s : σ) : World ι σ ε :=
  { transport := { stub := s, calls := [] }, promises := [],
    loop := { registeredCallbacks := 0, queue := [] }, goroutines := [] }

/-- Modelled from the spec: `runtime.NewPromise()` creates a pending promise;
its identity is returned. -/
def World.NewPromise {ι σ ε : Type} (w : World ι σ ε) : Nat × World ι σ ε :=
  (w.promises.length, { w with promises := w.promises ++ [Promise.pending] })

/-- Modelled from the spec: what the `resolve` and `reject` functions of
`runtime.NewPromise()` do to a promise: a pending promise is settled, a settled
one is left as it is. -/
def World.settle {ι σ ε : Type} (p : Nat) (s : Promise ε) (w : World ι σ ε) :
    World ι σ ε :=
  match w.promises[p]? with
  | some Promise.pending => { w with promises := w.promises.set p s }
  | _ => w

/-- Modelled from the spec: `vu.RegisterCallback()`: one more callback is
registered with the event loop. -/
def World.RegisterCallback {ι σ ε : Type} (w : World ι σ ε) : World ι σ ε :=
  { w with loop := { w.loop with registeredCallbacks := w.loop.registeredCallbacks + 1 } }

/-- Modelled from the spec: calling the function `vu.RegisterCallback()`
returned: the closure is put at the end of the queue and the registration is
used up (the comment of `makeHandledPromise`: the event loop is blocked from
exiting before the wrapped handles are called). Nothing else changes. -/
def World.callback {ι σ ε : Type} (f : Callback ε) (w : World ι σ ε) : World ι σ ε :=
  { w with loop := { registeredCallbacks := w.loop.registeredCallbacks - 1,
                     queue := w.loop.queue ++ [f] } }

/-- Running an enqueued closure on the event loop: it calls the promise's own
`resolve` or `reject`. -/
def Callback.run {ι σ ε : Type} (f : Callback ε) (w : World ι σ ε) : World ι σ ε :=
  match f with
  | Callback.resolve p i => w.settle p (Promise.fulfilled i)
  | Callback.reject p i => w.settle p (Promise.rejected i)

/-- Modelled from the spec: one turn of the event loop: the oldest enqueued
closure is taken off the queue and run. -/
def World.runCallback {ι σ ε : Type} (w : World ι σ ε) : World ι σ ε :=
  match w.loop.queue with
  | [] => w
  | f :: rest => f.run { w with loop := { w.loop with queue := rest } }

/-- Modelled from the spec: the event loop drains its queue: every enqueued
closure is run, in the order of enqueueing. -/
def World.runLoop {ι σ ε : Type} (w : World ι σ ε) : World ι σ ε :=
  w.loop.queue.foldl (fun (w' : World ι σ ε) f => f.run w')
    { w with loop := { w.loop with queue := [] } }

/-! ## kinesis/client.go: the asynchronous client -/

/-- The `resolve` function returned by `makeHandledPromise` for promise `p`:
it calls the registered callback with a closure that resolves the promise. -/
def AsyncClient.resolve {ι σ ε : Type} (p : Nat) (i : Any ε) (w : World ι σ ε) :
    World ι σ ε :=
  w.callback (Callback.resolve p i)

/-- The `reject` function returned by `makeHandledPromise` for promise `p`. -/
def AsyncClient.reject {ι σ ε : Type} (p : Nat) (i : Any ε) (w : World ι σ ε) :
    World ι σ ε :=
  w.callback (Callback.reject p i)

/-- The method `AsyncClient.makeHandledPromise`: register a callback with the
VU, create a promise. The promise is returned; its two wrapped handles are
`AsyncClient.resolve p` and `AsyncClient.reject p`. -/
def AsyncClient.makeHandledPromise {ι σ ε : Type} (w : World ι σ ε) :
    Nat × World ι σ ε :=
  w.RegisterCallback.NewPromise

/-- One invocation of a handle returned by `makeHandledPromise`. -/
inductive HandleCall (ε : Type) where
  | resolve (i : Any ε)
  | reject (i : Any ε)
  deriving DecidableEq, Repr

/-- What invoking a handle of promise `p` does to the world. -/
def HandleCall.run {ι σ ε : Type} (p : Nat) (h : HandleCall ε) (w : World ι σ ε) :
    World ι σ ε :=
  match h with
  | HandleCall.resolve i => AsyncClient.resolve p i w
  | HandleCall.reject i => AsyncClient.reject p i w

/-- The closure a handle of promise `p` hands to the registered callback. -/
def HandleCall.closure {ε : Type} (p : Nat) : HandleCall ε → Callback ε
  | HandleCall.resolve i => Callback.resolve p i
  | HandleCall.reject i => Callback.reject p i

/-- The body of the goroutine of `AsyncClient.PutRecord`, as the handle
invocations it makes, in order, and its effect on the transport: decode; on a
decode error `reject(err)` and return; call the transport; on an error
`reject(err)` and return; otherwise `resolve(output)`. -/
def AsyncClient.putRecordWorker {ι σ ε : Type} (D : Decoder ι ε) (c : client σ ε)
    (putRecordInput : ι) (t : Transport σ) : List (HandleCall ε) × Transport σ :=
  match D.putRecordInput putRecordInput PutRecordInput.zero with
  | (_, some err) => ([HandleCall.reject (Any.error err)], t)
  | (kinesisPutRecordInput, none) =>
    let r := c.invokePutRecord kinesisPutRecordInput t
    match r.1.2 with
    | some err => ([HandleCall.reject (Any.error err)], r.2)
    | none => ([HandleCall.resolve (Any.putRecordOutput r.1.1)], r.2)

/-- The body of the goroutine of `AsyncClient.PutRecords`. -/
def AsyncClient.putRecordsWorker {ι σ ε : Type} (D : Decoder ι ε) (c : client σ ε)
    (putRecordsInput : ι) (t : Transport σ) : List (HandleCall ε) × Transport σ :=
  match D.putRecordsInput putRecordsInput PutRecordsInput.zero with
  | (_, some err) => ([HandleCall.reject (Any.error err)], t)
  | (kinesisPutRecordsInput, none) =>
    let r := c.invokePutRecords kinesisPutRecordsInput t
    match r.1.2 with
    | some err => ([HandleCall.reject (Any.error err)], r.2)
    | none => ([HandleCall.resolve (Any.putRecordsOutput r.1.1)], r.2)

/-- The body of a goroutine, by the method that started it. -/
def Goroutine.body {ι σ ε : Type} (D : Decoder ι ε) (c : client σ ε)
    (g : Goroutine ι) (t : Transport σ) : List (HandleCall ε) × Transport σ :=
  match g with
  | Goroutine.putRecord _ x => AsyncClient.putRecordWorker D c x t
  | Goroutine.putRecords _ x => AsyncClient.putRecordsWorker D c x t

/-- The method `AsyncClient.PutRecord`: make a handled promise, start the
goroutine, return the promise. -/
def AsyncClient.PutRecord {ι σ ε : Type} (putRecordInput : ι) (w : World ι σ ε) :
    Nat × World ι σ ε :=
  let r := AsyncClient.makeHandledPromise w
  (r.1, { r.2 with goroutines := Goroutine.putRecord r.1 putRecordInput :: r.2.goroutines })

/-- The method `AsyncClient.PutRecords`. -/
def AsyncClient.PutRecords {ι σ ε : Type} (putRecordsInput : ι) (w : World ι σ ε) :
    Nat × World ι σ ε :=
  let r := AsyncClient.makeHandledPromise w
  (r.1, { r.2 with goroutines := Goroutine.putRecords r.1 putRecordsInput :: r.2.goroutines })

/-- The scheduler runs the goroutine at position `n` to completion (position 0
is the one started last): its body acts on the transport and invokes the
handles of its promise. -/
def World.runGoroutine {ι σ ε : Type} (D : Decoder ι ε) (c : client σ ε) (n : Nat)
    (w : World ι σ ε) : World ι σ ε :=
  match w.goroutines[n]? with
  | none => w
  | some g =>
    let r := g.body D c w.transport
    r.1.foldl (fun (w' : World ι σ ε) h => h.run g.promise w')
      { w with transport := r.2, goroutines := w.goroutines.eraseIdx n }

/-- The settled state a handle invocation leads to once its closure has run:
`resolve(i)` fulfils with `i`, `reject(i)` rejects with `i`. -/
def HandleCall.settled {ε : Type} : HandleCall ε → Promise ε
  | HandleCall.resolve i => Promise.fulfilled i
  | HandleCall.reject i => Promise.rejected i

/-- The outcome a promise reports for a synchronous result `(output, error)`,
in the words of spec section 4.4: rejected with the error the synchronous
client would have raised, fulfilled with the transport result otherwise. -/
def Promise.ofResult {ε : Type} : Any ε × Option ε → Promise ε
  | (_, some e) => Promise.rejected (Any.error e)
  | (o, none) => Promise.fulfilled o

/-- Every closure in the queue and every goroutine belongs to a promise the
runtime has created. -/
def World.Fresh {ι σ ε : Type} (w : World ι σ ε) : Prop :=
  (∀ f ∈ w.loop.queue, f.promise < w.promises.length) ∧
  (∀ g ∈ w.goroutines, g.promise < w.promises.length)

/-- The worlds a VU can be in: started fresh, then any interleaving of calls
to the two methods of the asynchronous client, goroutines run by the
scheduler, and turns of the event loop. -/
inductive Reachable {ι σ ε : Type} (D : Decoder ι ε) (c : client σ ε) (s : σ) :
    World ι σ ε → Prop where
  | init : Reachable D c s (World.init s)
  | putRecord {w : World ι σ ε} (x : ι) :
      Reachable D c s w → Reachable D c s (AsyncClient.PutRecord x w).2
  | putRecords {w : World ι σ ε} (x : ι) :
      Reachable D c s w → Reachable D c s (AsyncClient.PutRecords x w).2
  | goroutine {w : World ι σ ε} (n : Nat) :
      Reachable D c s w → Reachable D c s (w.runGoroutine D c n)
  | callback {w : World ι σ ε} :
      Reachable D c s w → Reachable D c s w.runCallback

/-! ## The request decoder and the errors of the tests -/

/-- Modelled from the spec: a loosely typed field value as script code supplies
it (spec sections 3 and 4.1): a bare number, a string, or a byte sequence. -/
inductive Value where
  | int (n : Int)
  | str (s : String)
  | bytes (b : List Nat)
  deriving DecidableEq, Repr

/-- Modelled from the spec: an untyped input mapping (the `RecordInput` and
`BatchInput` of spec section 3): entries with loosely typed values, and
possibly a `Records` entry holding an ordered sequence of record-shaped
mappings. -/
structure Input where
  fields : List (String × Value)
  Records : Option (List (List (String × Value)))
  deriving DecidableEq, Repr

/-- Modelled from the spec: the two reasons of a `DecodeError` (spec sections
4.1 and 7): a byte-sequence field was given a value that is no sequence, or a
string field was given a value that is no string. -/
inductive Reason where
  | notArrayOrSlice (got : Value)
  | notString (got : Value)
  deriving DecidableEq, Repr

/-- Modelled from the spec: a `DecodeError` carries the path of the offending
field and the reason (spec section 7). -/
structure DecodeError where
  path : String
  reason : Reason
  deriving DecidableEq, Repr

/-- The Go kind of a value, as the reason names it. -/
def Value.kind : Value → String
  | Value.int _ => "int"
  | Value.str _ => "string"
  | Value.bytes _ => "slice"

/-- The Go type of a value, as the reason names it. -/
def Value.typeName : Value → String
  | Value.int _ => "int"
  | Value.str _ => "string"
  | Value.bytes _ => "[]uint8"

/-- The printed form of a value, as the reason shows it. -/
def Value.format : Value → String
  | Value.int n => toString n
  | Value.str s => s
  | Value.bytes b => "[" ++ " ".intercalate (b.map toString) ++ "]"

/-- Modelled from the spec: the text of a decode error, in the form the tests
of `client_test.go` expect for a number given as `Data` and for a number given
as `Records[0].PartitionKey`. -/
def DecodeError.Error (e : DecodeError) : String :=
  "1 error(s) decoding:\n\n* " ++
    match e.reason with
    | Reason.notArrayOrSlice v =>
      "'" ++ e.path ++ "': source data must be an array or slice, got " ++ v.kind
    | Reason.notString v =>
      "'" ++ e.path ++ "' expected type 'string', got unconvertible type '" ++
        v.typeName ++ "', value: '" ++ v.format ++ "'"

/-- Modelled from the spec: a byte-sequence field accepts only a byte sequence
(spec section 4.1). -/
def decodeBytes (path : String) : Value → Except DecodeError (List Nat)
  | Value.bytes b => Except.ok b
  | v => Except.error { path := path, reason := Reason.notArrayOrSlice v }

/-- Modelled from the spec: a string field accepts only a string (spec section
4.1). -/
def decodeString (path : String) : Value → Except DecodeError String
  | Value.str s => Except.ok s
  | v => Except.error { path := path, reason := Reason.notString v }

/-- Modelled from the spec: decoding one field into a target that is filled in
place: nothing is done once an earlier field has failed; an absent field
leaves the target as it is; a present one is converted and stored, or its
error is reported (spec section 4.1). -/
def decodeField {α β : Type} (dec : String → Value → Except DecodeError β)
    (path : String) (v : Option Value) (set : β → α → α)
    (out : α × Option DecodeError) : α × Option DecodeError :=
  match out with
  | (o, some e) => (o, some e)
  | (o, none) =>
    match v with
    | none => (o, none)
    | some x =>
      match dec path x with
      | Except.ok b => (set b o, none)
      | Except.error e => (o, some e)

/-- Modelled from the spec: the request decoder of spec section 4.1 for the
single-record shape (`mapstructure.Decode` into a `kinesis.PutRecordInput`;
the library is outside this repository). Entries the shape does not have are
ignored. -/
def decodePutRecordInput (input : List (String × Value)) (out : PutRecordInput) :
    PutRecordInput × Option DecodeError :=
  (out, none)
  |> decodeField decodeBytes "Data" (input.lookup "Data")
      (fun b o => { o with Data := b })
  |> decodeField decodeString "PartitionKey" (input.lookup "PartitionKey")
      (fun x o => { o with PartitionKey := some x })
  |> decodeField decodeString "StreamName" (input.lookup "StreamName")
      (fun x o => { o with StreamName := some x })
  |> decodeField decodeString "ExplicitHashKey" (input.lookup "ExplicitHashKey")
      (fun x o => { o with ExplicitHashKey := some x })
  |> decodeField decodeString "SequenceNumberForOrdering"
      (input.lookup "SequenceNumberForOrdering")
      (fun x o => { o with SequenceNumberForOrdering := some x })

/-- The path of a field of the batch entry at index `i`. -/
def entryPath (i : Nat) (name : String) : String :=
  "Records[" ++ toString i ++ "]." ++ name

/-- Modelled from the spec: the request decoder for the batch entry at index
`i`; the paths of its errors carry the index (spec section 4.1). -/
def decodeEntry (i : Nat) (input : List (String × Value)) :
    PutRecordsRequestEntry × Option DecodeError :=
  (PutRecordsRequestEntry.zero, none)
  |> decodeField decodeBytes (entryPath i "Data") (input.lookup "Data")
      (fun b o => { o with Data := b })
  |> decodeField decodeString (entryPath i "PartitionKey") (input.lookup "PartitionKey")
      (fun x o => { o with PartitionKey := some x })
  |> decodeField decodeString (entryPath i "ExplicitHashKey") (input.lookup "ExplicitHashKey")
      (fun x o => { o with ExplicitHashKey := some x })
  |> decodeField decodeString (entryPath i "SequenceNumberForOrdering")
      (input.lookup "SequenceNumberForOrdering")
      (fun x o => { o with SequenceNumberForOrdering := some x })

/-- Modelled from the spec: the entries of a batch are decoded in order,
starting at index `i`; the first failing entry ends the decoding and its error
is the one reported (spec section 4.1). -/
def decodeEntries (i : Nat) : List (List (String × Value)) →
    List PutRecordsRequestEntry × Option DecodeError
  | [] => ([], none)
  | r :: rs =>
    match decodeEntry i r with
    | (e, some err) => ([e], some err)
    | (e, none) =>
      let rest := decodeEntries (i + 1) rs
      (e :: rest.1, rest.2)

/-- Modelled from the spec: the request decoder of spec section 4.1 for the
batch shape (`mapstructure.Decode` into a `kinesis.PutRecordsInput`). -/
def decodePutRecordsInput (input : Input) (out : PutRecordsInput) :
    PutRecordsInput × Option DecodeError :=
  let afterRecords : PutRecordsInput × Option DecodeError :=
    match input.Records with
    | none => (out, none)
    | some rs =>
      let r := decodeEntries 0 rs
      ({ out with Records := r.1 }, r.2)
  afterRecords
  |> decodeField decodeString "StreamName" (input.fields.lookup "StreamName")
      (fun x o => { o with StreamName := some x })

/-- Modelled from the spec: a failure of the remote service: a machine-readable
error kind and a human-readable message (spec section 3), such as
`types.ProvisionedThroughputExceededException`. -/
structure APIError where
  code : String
  message : String
  deriving DecidableEq, Repr

/-- The text of a service error: its kind, a colon, its message. -/
def APIError.Error (e : APIError) : String :=
  e.code ++ ": " ++ e.message

/-- A Go `error` as the clients meet it: a decode error or a service error. -/
inductive error where
  | decode (e : DecodeError)
  | api (e : APIError)
  deriving DecidableEq, Repr

/-- The method `Error()` of an error. -/
def error.Error : error → String
  | error.decode e => e.Error
  | error.api e => e.Error

/-- The decoder of spec section 4.1 as the clients call it. -/
def mapstructure : Decoder Input error where
  putRecordInput := fun x out =>
    let r := decodePutRecordInput x.fields out
    (r.1, r.2.map error.decode)
  putRecordsInput := fun x out =>
    let r := decodePutRecordsInput x out
    (r.1, r.2.map error.decode)

/-- The `mockKinesisClient` of `client_test.go`, set up with
`On(action).Return(output, err)`: both methods ignore the request and return
the configured pair. -/
def mockKinesisClient {ε : Type} (output : Option PutRecordOutput)
    (outputs : Option PutRecordsOutput) (err : Option ε) : client Unit ε where
  PutRecord := fun _ s => ((output, err), s)
  PutRecords := fun _ s => ((outputs, err), s)

/-- The error `&types.ProvisionedThroughputExceededException{Message: m}`. -/
def ProvisionedThroughputExceededException (m : String) : error :=
  error.api { code := "ProvisionedThroughputExceededException", message := m }

/-- The entry `name` of a mapping, when present, is a string. -/
def stringField (input : List (String × Value)) (name : String) : Prop :=
  ∀ v, input.lookup name = some v → ∃ x, v = Value.str x

/-- The entry `name` of a mapping, when present, is a byte sequence. -/
def bytesField (input : List (String × Value)) (name : String) : Prop :=
  ∀ v, input.lookup name = some v → ∃ b, v = Value.bytes b

/-- Every present field of a record input has the type the single-record
shape asks for: `Data` a byte sequence, the others a string. -/
def wellTypedRecord (input : List (String × Value)) : Prop :=
  bytesField input "Data" ∧ stringField input "PartitionKey" ∧
  stringField input "StreamName" ∧ stringField input "ExplicitHashKey" ∧
  stringField input "SequenceNumberForOrdering"

/-- Every present field of a batch entry has the type the entry shape asks
for. -/
def wellTypedEntry (input : List (String × Value)) : Prop :=
  bytesField input "Data" ∧ stringField input "PartitionKey" ∧
  stringField input "ExplicitHashKey" ∧ stringField input "SequenceNumberForOrdering"

/-- Every present field of a batch input has the type the batch shape asks
for: every entry of `Records` is well typed and `StreamName` is a string. -/
def wellTypedBatch (x : Input) : Prop :=
  (∀ rs, x.Records = some rs → ∀ r ∈ rs, wellTypedEntry r) ∧
  stringField x.fields "StreamName"

/-- The value supplied for a string field: the string when one is supplied,
the zero value `nil` when the field is absent. -/
def suppliedString (input : List (String × Value)) (name : String) : Option String :=
  match input.lookup name with
  | some (Value.str x) => some x
  | _ => none

/-- The value supplied for a byte-sequence field: the bytes when supplied, the
zero value (no bytes) when the field is absent. -/
def suppliedBytes (input : List (String × Value)) (name : String) : List Nat :=
  match input.lookup name with
  | some (Value.bytes b) => b
  | _ => []

/-- The typed single-record request whose every field is the value supplied
in the input. -/
def suppliedRecord (input : List (String × Value)) : PutRecordInput :=
  { Data := suppliedBytes input "Data",
    PartitionKey := suppliedString input "PartitionKey",
    StreamName := suppliedString input "StreamName",
    ExplicitHashKey := suppliedString input "ExplicitHashKey",
    SequenceNumberForOrdering := suppliedString input "SequenceNumberForOrdering" }

/-- The typed batch entry whose every field is the value supplied in the
input. -/
def suppliedEntry (input : List (String × Value)) : PutRecordsRequestEntry :=
  { Data := suppliedBytes input "Data",
    PartitionKey := suppliedString input "PartitionKey",
    ExplicitHashKey := suppliedString input "ExplicitHashKey",
    SequenceNumberForOrdering := suppliedString input "SequenceNumberForOrdering" }

/-- The typed batch request whose records are the supplied entries, in order,
and whose stream name is the one supplied. -/
def suppliedBatch (x : Input) : PutRecordsInput :=
  { Records := (x.Records.getD []).map suppliedEntry,
    StreamName := suppliedString x.fields "StreamName" }

/-- The input of the test "PutRecord method invocation is successful". -/
def helloWorldRecord : Input :=
  { fields := [("Data", Value.bytes [104, 101, 108, 108, 111, 32, 119, 111, 114, 108, 100]),
               ("PartitionKey", Value.str "pk"), ("StreamName", Value.str "stream")],
    Records := none }

/-- The input of the test "PutRecords method invocation receives invalid
input": the partition key of the only record is the number 123. -/
def numberAsPartitionKey : Input :=
  { fields := [], Records := some [[("PartitionKey", Value.int 123)]] }

/-- The input of the test "PutRecords method invocation is successful". -/
def helloWorldBatch : Input :=
  { fields := [("StreamName", Value.str "stream")],
    Records := some [[("Data", Value.bytes
        [104, 101, 108, 108, 111, 32, 119, 111, 114, 108, 100]),
      ("PartitionKey", Value.str "pk")]] }

/-- The input of the test "PutRecord method invocation is throttled": only
`Data` is given. -/
def onlyData : Input :=
  { fields := [("Data", Value.bytes [104, 101, 108, 108, 111, 32, 119, 111, 114, 108, 100])],
    Records := none }

/-- The transport of the test "PutRecord method invocation is successful": it
returns sequence number "01". -/
def returnsSequenceNumber01 : client Unit error :=
  mockKinesisClient (some { SequenceNumber := some "01" }) none none

/-- The transport of the tests "method invocation is throttled". -/
def throttled : client Unit error :=
  mockKinesisClient (some { SequenceNumber := none }) (some { FailedRecordCount := none })
    (some (ProvisionedThroughputExceededException "<error msg>"))

/-- A fresh VU in which `AsyncClient.PutRecord` has just been called with the
well-formed record of the tests. -/
def helloWorldStarted : World Input Unit error :=
  (AsyncClient.PutRecord helloWorldRecord (World.init ())).2

/-- The input of the test "PutRecord method invocation receives invalid
input": `Data` is the number 123. -/
def numberAsData : Input :=
  { fields := [("Data", Value.int 123)], Records := none }

/-! ## kinesis/module.go: the endpoint resolver of `loadAwsSdkConfig` -/

/-- Modelled from the spec: an `aws.Endpoint` of the AWS SDK (declared outside
this repository). The code sets its `URL` and nothing else; the zero value has
the empty URL. -/
structure Endpoint where
  URL : String
  deriving DecidableEq, Repr

/-- Modelled from the spec: the error `aws.EndpointNotFoundError` of the AWS
SDK, which lets the service fall back to the default resolution; `Err` is the
error it wraps, if any. -/
structure EndpointNotFoundError where
  Err : Option String
  deriving DecidableEq, Repr

/-- A JavaScript value given to a client constructor: `undefined`, or a
string. -/
inductive JSValue where
  | undefined
  | string (s : String)
  deriving DecidableEq, Repr

/-- A `goja.ConstructorCall`: the arguments of `new kinesis.Client(...)`. -/
structure ConstructorCall where
  Arguments : List JSValue
  deriving DecidableEq, Repr

/-- Modelled from the spec: `call.Argument(n)`: the argument at position `n`,
`undefined` when the call has no such argument. -/
def ConstructorCall.Argument (call : ConstructorCall) (n : Nat) : JSValue :=
  call.Arguments.getD n JSValue.undefined

/-- Modelled from the spec: `rt.ExportTo(v, &endpointURL)` for a Go string: a
string is copied, `undefined` leaves the zero value (`TestLoadAwsSdkConfig`
passes no argument for the default endpoint and expects the empty URL). -/
def ExportTo : JSValue → Except String String
  | JSValue.undefined => Except.ok ""
  | JSValue.string s => Except.ok s

/-- The function literal `loadAwsSdkConfig` passes to
`aws.EndpointResolverWithOptionsFunc`, closed over `endpointURL`. -/
def endpointResolver (endpointURL : String) (_service _region : String)
    (_options : List String) : Endpoint × Option EndpointNotFoundError :=
  if endpointURL != "" then
    ({ URL := endpointURL }, none)
  else
    ({ URL := "" }, some { Err := none })

/-- Modelled from the spec: the part of an `aws.Config` the claims need: the
region and the installed endpoint resolver. -/
structure Config where
  Region : String
  EndpointResolverWithOptions :
    String → String → List String → Endpoint × Option EndpointNotFoundError

/-- Modelled from the spec: `config.LoadDefaultConfig(ctx,
config.WithEndpointResolverWithOptions(r))`: the configuration chain of the
hosting environment fails, or yields a configuration (here its region) in which
`r` is installed (spec section 6). -/
def LoadDefaultConfig (env : Except String String)
    (r : String → String → List String → Endpoint × Option EndpointNotFoundError) :
    Except String Config :=
  match env with
  | Except.error err => Except.error err
  | Except.ok region => Except.ok { Region := region, EndpointResolverWithOptions := r }

/-- The function `loadAwsSdkConfig`: read the endpoint URL from the first
argument, build the resolver, load the default configuration with it. A
`common.Throw` is an `Except.error` with the thrown text. -/
def loadAwsSdkConfig (env : Except String String) (call : ConstructorCall) :
    Except String Config :=
  match ExportTo (call.Argument 0) with
  | Except.error err => Except.error ("unable to read the endpoint URL argument, " ++ err)
  | Except.ok endpointURL =>
    match LoadDefaultConfig env (endpointResolver endpointURL) with
    | Except.error err =>
      Except.error ("unable to read the AWS SDK's default external configurations, " ++ err)
    | Except.ok cfg => Except.ok cfg

/-! ## What keeps the event loop alive -/

/-- A promise that is not settled yet. -/
def Promise.isPending {ε : Type} : Promise ε → Bool
  | Promise.pending => true
  | _ => false

/-- The number of promises of the runtime that are not settled yet. -/
def World.unsettled {ι σ ε : Type} (w : World ι σ ε) : Nat :=
  w.promises.countP Promise.isPending

/-- Modelled from the spec: the event loop considers the job finished when no
registered callback is outstanding and no closure waits in the queue (spec
sections 4.5 and 9). -/
def World.finished {ι σ ε : Type} (w : World ι σ ε) : Bool :=
  w.loop.registeredCallbacks == 0 && w.loop.queue.isEmpty

/-- The promises some goroutine or some queued closure still has to settle:
those of the goroutines not yet run, then those of the closures in the
queue. -/
def World.owners {ι σ ε : Type} (w : World ι σ ε) : List Nat :=
  w.goroutines.map Goroutine.promise ++ w.loop.queue.map Callback.promise

/-- The bookkeeping of a VU: every goroutine not yet run holds one registered
callback; no promise has two owners; every owned promise is pending; and the
unsettled promises are as many as the owners. -/
def World.Accounted {ι σ ε : Type} (w : World ι σ ε) : Prop :=
  w.loop.registeredCallbacks = w.goroutines.length ∧
  w.owners.Nodup ∧
  (∀ p ∈ w.owners, w.promises[p]? = some Promise.pending) ∧
  w.unsettled = w.goroutines.length + w.loop.queue.length

/-- The constructor call of the test "use an access key and a custom
endpoint". -/
def customEndpointCall : ConstructorCall :=
  { Arguments := [JSValue.string "http://localhost:4566"] }

/-- The world of the tests after the goroutine of the started call has run and
before the event loop has taken a turn. -/
def helloWorldEnqueued : World Input Unit error :=
  helloWorldStarted.runGoroutine mapstructure returnsSequenceNumber01 0

end Kinesis

/-! ## Lemmas on the goroutine bodies and the scheduler step -/

namespace Kinesis

section Workers

variable {ι σ ε : Type} (D : Decoder ι ε) (c : client σ ε)

theorem HandleCall.run_eq_callback (p : Nat) (h : HandleCall ε) (w : World ι σ ε) :
    h.run p w = w.callback (h.closure p) := by
  cases h <;> rfl

theorem putRecordWorker_decode_error (x : ι) (t : Transport σ) (e : ε)
    (hd : (D.putRecordInput x PutRecordInput.zero).2 = some e) :
    AsyncClient.putRecordWorker D c x t = ([HandleCall.reject (Any.error e)], t) := by
  unfold AsyncClient.putRecordWorker
  rcases hx : D.putRecordInput x PutRecordInput.zero with ⟨req, err⟩
  rw [hx] at hd
  cases hd
  rfl

theorem putRecordWorker_transport_error (x : ι) (t : Transport σ) (e : ε)
    (hd : (D.putRecordInput x PutRecordInput.zero).2 = none)
    (ht : (c.PutRecord (D.putRecordInput x PutRecordInput.zero).1 t.stub).1.2 = some e) :
    AsyncClient.putRecordWorker D c x t =
      ([HandleCall.reject (Any.error e)],
        (c.invokePutRecord (D.putRecordInput x PutRecordInput.zero).1 t).2) := by
  unfold AsyncClient.putRecordWorker
  rcases hx : D.putRecordInput x PutRecordInput.zero with ⟨req, err⟩
  rw [hx] at hd ht
  cases hd
  simp only [client.invokePutRecord]
  simp only at ht
  rw [ht]

theorem putRecordWorker_success (x : ι) (t : Transport σ)
    (hd : (D.putRecordInput x PutRecordInput.zero).2 = none)
    (ht : (c.PutRecord (D.putRecordInput x PutRecordInput.zero).1 t.stub).1.2 = none) :
    AsyncClient.putRecordWorker D c x t =
      ([HandleCall.resolve (Any.putRecordOutput
          (c.PutRecord (D.putRecordInput x PutRecordInput.zero).1 t.stub).1.1)],
        (c.invokePutRecord (D.putRecordInput x PutRecordInput.zero).1 t).2) := by
  unfold AsyncClient.putRecordWorker
  rcases hx : D.putRecordInput x PutRecordInput.zero with ⟨req, err⟩
  rw [hx] at hd ht
  cases hd
  simp only [client.invokePutRecord]
  simp only at ht
  rw [ht]

theorem putRecordsWorker_decode_error (x : ι) (t : Transport σ) (e : ε)
    (hd : (D.putRecordsInput x PutRecordsInput.zero).2 = some e) :
    AsyncClient.putRecordsWorker D c x t = ([HandleCall.reject (Any.error e)], t) := by
  unfold AsyncClient.putRecordsWorker
  rcases hx : D.putRecordsInput x PutRecordsInput.zero with ⟨req, err⟩
  rw [hx] at hd
  cases hd
  rfl

theorem putRecordsWorker_transport_error (x : ι) (t : Transport σ) (e : ε)
    (hd : (D.putRecordsInput x PutRecordsInput.zero).2 = none)
    (ht : (c.PutRecords (D.putRecordsInput x PutRecordsInput.zero).1 t.stub).1.2 = some e) :
    AsyncClient.putRecordsWorker D c x t =
      ([HandleCall.reject (Any.error e)],
        (c.invokePutRecords (D.putRecordsInput x PutRecordsInput.zero).1 t).2) := by
  unfold AsyncClient.putRecordsWorker
  rcases hx : D.putRecordsInput x PutRecordsInput.zero with ⟨req, err⟩
  rw [hx] at hd ht
  cases hd
  simp only [client.invokePutRecords]
  simp only at ht
  rw [ht]

theorem putRecordsWorker_success (x : ι) (t : Transport σ)
    (hd : (D.putRecordsInput x PutRecordsInput.zero).2 = none)
    (ht : (c.PutRecords (D.putRecordsInput x PutRecordsInput.zero).1 t.stub).1.2 = none) :
    AsyncClient.putRecordsWorker D c x t =
      ([HandleCall.resolve (Any.putRecordsOutput
          (c.PutRecords (D.putRecordsInput x PutRecordsInput.zero).1 t.stub).1.1)],
        (c.invokePutRecords (D.putRecordsInput x PutRecordsInput.zero).1 t).2) := by
  unfold AsyncClient.putRecordsWorker
  rcases hx : D.putRecordsInput x PutRecordsInput.zero with ⟨req, err⟩
  rw [hx] at hd ht
  cases hd
  simp only [client.invokePutRecords]
  simp only at ht
  rw [ht]

theorem putRecordWorker_single (x : ι) (t : Transport σ) :
    ∃ h, (AsyncClient.putRecordWorker D c x t).1 = [h] := by
  rcases hd : (D.putRecordInput x PutRecordInput.zero).2 with _ | e
  · rcases ht : (c.PutRecord (D.putRecordInput x PutRecordInput.zero).1 t.stub).1.2 with _ | e
    · exact ⟨_, by rw [putRecordWorker_success D c x t hd ht]⟩
    · exact ⟨_, by rw [putRecordWorker_transport_error D c x t e hd ht]⟩
  · exact ⟨_, by rw [putRecordWorker_decode_error D c x t e hd]⟩

theorem putRecordsWorker_single (x : ι) (t : Transport σ) :
    ∃ h, (AsyncClient.putRecordsWorker D c x t).1 = [h] := by
  rcases hd : (D.putRecordsInput x PutRecordsInput.zero).2 with _ | e
  · rcases ht : (c.PutRecords (D.putRecordsInput x PutRecordsInput.zero).1 t.stub).1.2 with _ | e
    · exact ⟨_, by rw [putRecordsWorker_success D c x t hd ht]⟩
    · exact ⟨_, by rw [putRecordsWorker_transport_error D c x t e hd ht]⟩
  · exact ⟨_, by rw [putRecordsWorker_decode_error D c x t e hd]⟩

theorem Goroutine.body_single (g : Goroutine ι) (t : Transport σ) :
    ∃ h, (g.body D c t).1 = [h] := by
  cases g with
  | putRecord p x => exact putRecordWorker_single D c x t
  | putRecords p x => exact putRecordsWorker_single D c x t

/-- Running the goroutine at position `n`: its body acts on the transport, the
goroutine is gone, and the one handle invocation of the body calls the
registered callback with one closure for the goroutine's promise. -/
theorem World.runGoroutine_eq (w : World ι σ ε) (n : Nat) (g : Goroutine ι)
    (hg : w.goroutines[n]? = some g) :
    ∃ h, (g.body D c w.transport).1 = [h] ∧
      w.runGoroutine D c n =
        World.callback (h.closure g.promise)
          { w with transport := (g.body D c w.transport).2,
                   goroutines := w.goroutines.eraseIdx n } := by
  obtain ⟨h, hh⟩ := Goroutine.body_single D c g w.transport
  refine ⟨h, hh, ?_⟩
  unfold World.runGoroutine
  rw [hg]
  simp only [hh, List.foldl_cons, List.foldl_nil, HandleCall.run_eq_callback]

theorem World.runGoroutine_none (w : World ι σ ε) (n : Nat)
    (hg : w.goroutines[n]? = none) : w.runGoroutine D c n = w := by
  unfold World.runGoroutine
  rw [hg]

end Workers

end Kinesis

/-! ## The synchronous client passes the transport's answer through -/

namespace Kinesis

/-- C1: `SyncClient.PutRecord` and `SyncClient.PutRecords` return `(nil, e)`
when decoding the input fails with `e`, and otherwise exactly the pair
`(output, error)` the transport returned for the decoded request. In particular
a stub returning sequence number "01" yields a result carrying "01", and a stub
failing with `ProvisionedThroughputExceededException("<error msg>")` yields
that same error, whose text is
"ProvisionedThroughputExceededException: <error msg>". -/
theorem SyncClient_returns_what_transport_returned {ι σ ε : Type}
    (D : Decoder ι ε) (c : client σ ε) (x : ι) (t : Transport σ) :
    (∀ e, (D.putRecordInput x PutRecordInput.zero).2 = some e →
      (SyncClient.PutRecord D c x t).1 = (Any.nil, some e)) ∧
    ((D.putRecordInput x PutRecordInput.zero).2 = none →
      (SyncClient.PutRecord D c x t).1 =
        (Any.putRecordOutput
            (c.PutRecord (D.putRecordInput x PutRecordInput.zero).1 t.stub).1.1,
          (c.PutRecord (D.putRecordInput x PutRecordInput.zero).1 t.stub).1.2)) ∧
    (∀ e, (D.putRecordsInput x PutRecordsInput.zero).2 = some e →
      (SyncClient.PutRecords D c x t).1 = (Any.nil, some e)) ∧
    ((D.putRecordsInput x PutRecordsInput.zero).2 = none →
      (SyncClient.PutRecords D c x t).1 =
        (Any.putRecordsOutput
            (c.PutRecords (D.putRecordsInput x PutRecordsInput.zero).1 t.stub).1.1,
          (c.PutRecords (D.putRecordsInput x PutRecordsInput.zero).1 t.stub).1.2)) ∧
    (∀ (D' : Decoder ι error) (t' : Transport Unit),
      (D'.putRecordInput x PutRecordInput.zero).2 = none →
      (SyncClient.PutRecord D'
          (mockKinesisClient (some { SequenceNumber := some "01" }) none none) x t').1 =
        (Any.putRecordOutput (some { SequenceNumber := some "01" }), none)) ∧
    (∀ (D' : Decoder ι error) (t' : Transport Unit) (o : Option PutRecordOutput)
        (os : Option PutRecordsOutput),
      ((D'.putRecordInput x PutRecordInput.zero).2 = none →
        (SyncClient.PutRecord D'
            (mockKinesisClient o os
              (some (ProvisionedThroughputExceededException "<error msg>"))) x t').1.2 =
          some (ProvisionedThroughputExceededException "<error msg>")) ∧
      ((D'.putRecordsInput x PutRecordsInput.zero).2 = none →
        (SyncClient.PutRecords D'
            (mockKinesisClient o os
              (some (ProvisionedThroughputExceededException "<error msg>"))) x t').1.2 =
          some (ProvisionedThroughputExceededException "<error msg>"))) ∧
    (ProvisionedThroughputExceededException "<error msg>").Error =
      "ProvisionedThroughputExceededException: <error msg>" := by
  refine ⟨?_, ?_, ?_, ?_, ?_, ?_, by decide⟩
  · intro e h
    unfold SyncClient.PutRecord
    rcases hd : D.putRecordInput x PutRecordInput.zero with ⟨req, err⟩
    rw [hd] at h
    cases h
    rfl
  · intro h
    unfold SyncClient.PutRecord
    rcases hd : D.putRecordInput x PutRecordInput.zero with ⟨req, err⟩
    rw [hd] at h
    cases h
    rfl
  · intro e h
    unfold SyncClient.PutRecords
    rcases hd : D.putRecordsInput x PutRecordsInput.zero with ⟨req, err⟩
    rw [hd] at h
    cases h
    rfl
  · intro h
    unfold SyncClient.PutRecords
    rcases hd : D.putRecordsInput x PutRecordsInput.zero with ⟨req, err⟩
    rw [hd] at h
    cases h
    rfl
  · intro D' t' h
    unfold SyncClient.PutRecord
    rcases hd : D'.putRecordInput x PutRecordInput.zero with ⟨req, err⟩
    rw [hd] at h
    cases h
    rfl
  · intro D' t' o os
    constructor
    · intro h
      unfold SyncClient.PutRecord
      rcases hd : D'.putRecordInput x PutRecordInput.zero with ⟨req, err⟩
      rw [hd] at h
      cases h
      rfl
    · intro h
      unfold SyncClient.PutRecords
      rcases hd : D'.putRecordsInput x PutRecordsInput.zero with ⟨req, err⟩
      rw [hd] at h
      cases h
      rfl

end Kinesis

namespace Kinesis

/-- C1 at the inputs of the tests: the number 123 as `Data` comes back as
`(nil, decode error)`, and the well-formed record comes back with the stub's
sequence number "01". -/
theorem SyncClient_returns_what_transport_returned_witness :
    (SyncClient.PutRecord mapstructure
        (mockKinesisClient (some { SequenceNumber := some "01" }) none none)
        numberAsData { stub := (), calls := [] }).1 =
      (Any.nil, some (error.decode
        { path := "Data", reason := Reason.notArrayOrSlice (Value.int 123) })) ∧
    (SyncClient.PutRecord mapstructure
        (mockKinesisClient (some { SequenceNumber := some "01" }) none none)
        helloWorldRecord { stub := (), calls := [] }).1 =
      (Any.putRecordOutput (some { SequenceNumber := some "01" }), none) :=
  ⟨(SyncClient_returns_what_transport_returned mapstructure
      (mockKinesisClient (some { SequenceNumber := some "01" }) none none)
      numberAsData { stub := (), calls := [] }).1 _ (by decide),
   (SyncClient_returns_what_transport_returned mapstructure
      (mockKinesisClient (some { SequenceNumber := some "01" }) none none)
      helloWorldRecord { stub := (), calls := [] }).2.2.2.2.1 mapstructure
      { stub := (), calls := [] } (by decide)⟩

end Kinesis

/-! ## The transport is invoked once per decoded request, never otherwise -/

namespace Kinesis

/-- C2: for `SyncClient.PutRecord`, `SyncClient.PutRecords`,
`AsyncClient.PutRecord` and `AsyncClient.PutRecords`: when decoding the input
fails the transport is not invoked (it is left exactly as it was), and when
decoding succeeds the matching transport operation is invoked exactly once,
with the decoded request. For the asynchronous client the method itself
leaves the transport alone and starts one goroutine; the invocation is made
by that goroutine, which is gone once it has run. -/
theorem transport_invoked_once_iff_decoded {ι σ ε : Type}
    (D : Decoder ι ε) (c : client σ ε) (x : ι) (t : Transport σ)
    (w : World ι σ ε) (n p : Nat) :
    ((∀ e, (D.putRecordInput x PutRecordInput.zero).2 = some e →
        (SyncClient.PutRecord D c x t).2 = t) ∧
      ((D.putRecordInput x PutRecordInput.zero).2 = none →
        (SyncClient.PutRecord D c x t).2.calls =
          t.calls ++ [Call.PutRecord (D.putRecordInput x PutRecordInput.zero).1])) ∧
    ((∀ e, (D.putRecordsInput x PutRecordsInput.zero).2 = some e →
        (SyncClient.PutRecords D c x t).2 = t) ∧
      ((D.putRecordsInput x PutRecordsInput.zero).2 = none →
        (SyncClient.PutRecords D c x t).2.calls =
          t.calls ++ [Call.PutRecords (D.putRecordsInput x PutRecordsInput.zero).1])) ∧
    ((AsyncClient.PutRecord x w).2.transport = w.transport ∧
      (AsyncClient.PutRecord x w).2.goroutines =
        Goroutine.putRecord (AsyncClient.PutRecord x w).1 x :: w.goroutines) ∧
    ((AsyncClient.PutRecords x w).2.transport = w.transport ∧
      (AsyncClient.PutRecords x w).2.goroutines =
        Goroutine.putRecords (AsyncClient.PutRecords x w).1 x :: w.goroutines) ∧
    (w.goroutines[n]? = some (Goroutine.putRecord p x) →
      (w.runGoroutine D c n).goroutines = w.goroutines.eraseIdx n ∧
      (∀ e, (D.putRecordInput x PutRecordInput.zero).2 = some e →
        (w.runGoroutine D c n).transport = w.transport) ∧
      ((D.putRecordInput x PutRecordInput.zero).2 = none →
        (w.runGoroutine D c n).transport.calls =
          w.transport.calls ++
            [Call.PutRecord (D.putRecordInput x PutRecordInput.zero).1])) ∧
    (w.goroutines[n]? = some (Goroutine.putRecords p x) →
      (w.runGoroutine D c n).goroutines = w.goroutines.eraseIdx n ∧
      (∀ e, (D.putRecordsInput x PutRecordsInput.zero).2 = some e →
        (w.runGoroutine D c n).transport = w.transport) ∧
      ((D.putRecordsInput x PutRecordsInput.zero).2 = none →
        (w.runGoroutine D c n).transport.calls =
          w.transport.calls ++
            [Call.PutRecords (D.putRecordsInput x PutRecordsInput.zero).1])) := by
  refine ⟨⟨?_, ?_⟩, ⟨?_, ?_⟩, ⟨rfl, rfl⟩, ⟨rfl, rfl⟩, ?_, ?_⟩
  · intro e h
    unfold SyncClient.PutRecord
    rcases hd : D.putRecordInput x PutRecordInput.zero with ⟨req, err⟩
    rw [hd] at h
    cases h
    rfl
  · intro h
    unfold SyncClient.PutRecord
    rcases hd : D.putRecordInput x PutRecordInput.zero with ⟨req, err⟩
    rw [hd] at h
    cases h
    rfl
  · intro e h
    unfold SyncClient.PutRecords
    rcases hd : D.putRecordsInput x PutRecordsInput.zero with ⟨req, err⟩
    rw [hd] at h
    cases h
    rfl
  · intro h
    unfold SyncClient.PutRecords
    rcases hd : D.putRecordsInput x PutRecordsInput.zero with ⟨req, err⟩
    rw [hd] at h
    cases h
    rfl
  · intro hg
    obtain ⟨h, -, hrun⟩ := World.runGoroutine_eq D c w n _ hg
    refine ⟨by rw [hrun]; rfl, ?_, ?_⟩
    · intro e hd
      rw [hrun]
      simp only [World.callback, Goroutine.body,
        putRecordWorker_decode_error D c x w.transport e hd]
    · intro hd
      rw [hrun]
      simp only [World.callback, Goroutine.body]
      rcases ht : (c.PutRecord (D.putRecordInput x PutRecordInput.zero).1
        w.transport.stub).1.2 with _ | e
      · rw [putRecordWorker_success D c x w.transport hd ht]
        rfl
      · rw [putRecordWorker_transport_error D c x w.transport e hd ht]
        rfl
  · intro hg
    obtain ⟨h, -, hrun⟩ := World.runGoroutine_eq D c w n _ hg
    refine ⟨by rw [hrun]; rfl, ?_, ?_⟩
    · intro e hd
      rw [hrun]
      simp only [World.callback, Goroutine.body,
        putRecordsWorker_decode_error D c x w.transport e hd]
    · intro hd
      rw [hrun]
      simp only [World.callback, Goroutine.body]
      rcases ht : (c.PutRecords (D.putRecordsInput x PutRecordsInput.zero).1
        w.transport.stub).1.2 with _ | e
      · rw [putRecordsWorker_success D c x w.transport hd ht]
        rfl
      · rw [putRecordsWorker_transport_error D c x w.transport e hd ht]
        rfl

end Kinesis

/-! ## Lemmas on promises and callbacks -/

namespace Kinesis

section Promises

variable {ι σ ε : Type}

theorem World.settle_promises_length (p : Nat) (s : Promise ε) (w : World ι σ ε) :
    (w.settle p s).promises.length = w.promises.length := by
  unfold World.settle
  split
  · simp
  · rfl

theorem World.settle_get_of_ne (p q : Nat) (s : Promise ε) (w : World ι σ ε)
    (hne : p ≠ q) : (w.settle p s).promises[q]? = w.promises[q]? := by
  unfold World.settle
  split
  · simp [List.getElem?_set_ne hne]
  · rfl

theorem World.settle_get_of_pending (p : Nat) (s : Promise ε) (w : World ι σ ε)
    (hp : w.promises[p]? = some Promise.pending) :
    (w.settle p s).promises[p]? = some s := by
  unfold World.settle
  rw [hp]
  have hlt : p < w.promises.length := by
    rcases List.getElem?_eq_some_iff.mp hp with ⟨h, -⟩
    exact h
  simp [List.getElem?_set_self hlt]

theorem World.settle_get_of_settled (p : Nat) (s : Promise ε) (w : World ι σ ε)
    (hp : w.promises[p]? ≠ some Promise.pending) : w.settle p s = w := by
  unfold World.settle
  split
  · next h => exact absurd h hp
  · rfl

theorem World.settle_transport (p : Nat) (s : Promise ε) (w : World ι σ ε) :
    (w.settle p s).transport = w.transport := by
  unfold World.settle
  split <;> rfl

theorem World.settle_loop (p : Nat) (s : Promise ε) (w : World ι σ ε) :
    (w.settle p s).loop = w.loop := by
  unfold World.settle
  split <;> rfl

theorem World.settle_goroutines (p : Nat) (s : Promise ε) (w : World ι σ ε) :
    (w.settle p s).goroutines = w.goroutines := by
  unfold World.settle
  split <;> rfl

theorem Callback.run_promises_length (f : Callback ε) (w : World ι σ ε) :
    (f.run w).promises.length = w.promises.length := by
  cases f <;> exact World.settle_promises_length _ _ _

theorem Callback.run_get_of_ne (f : Callback ε) (w : World ι σ ε) (q : Nat)
    (hne : f.promise ≠ q) : (f.run w).promises[q]? = w.promises[q]? := by
  cases f <;> exact World.settle_get_of_ne _ _ _ _ hne

theorem Callback.run_transport (f : Callback ε) (w : World ι σ ε) :
    (f.run w).transport = w.transport := by
  cases f <;> exact World.settle_transport _ _ _

theorem Callback.run_loop (f : Callback ε) (w : World ι σ ε) :
    (f.run w).loop = w.loop := by
  cases f <;> exact World.settle_loop _ _ _

theorem Callback.run_goroutines (f : Callback ε) (w : World ι σ ε) :
    (f.run w).goroutines = w.goroutines := by
  cases f <;> exact World.settle_goroutines _ _ _

/-- Running closures that belong to other promises leaves promise `q` as it
is. -/
theorem foldl_run_get_of_ne (fs : List (Callback ε)) (q : Nat)
    (hfs : ∀ f ∈ fs, f.promise ≠ q) (w : World ι σ ε) :
    (fs.foldl (fun (w' : World ι σ ε) f => f.run w') w).promises[q]? = w.promises[q]? := by
  induction fs generalizing w with
  | nil => rfl
  | cons f fs ih =>
    rw [List.foldl_cons, ih (fun g hg => hfs g (List.mem_cons_of_mem _ hg))]
    exact Callback.run_get_of_ne f w q (hfs f (List.mem_cons_self _ _))

theorem World.runGoroutine_promises (D : Decoder ι ε) (c : client σ ε) (n : Nat)
    (w : World ι σ ε) : (w.runGoroutine D c n).promises = w.promises := by
  rcases hg : w.goroutines[n]? with _ | g
  · rw [World.runGoroutine_none D c w n hg]
  · obtain ⟨h, -, hrun⟩ := World.runGoroutine_eq D c w n g hg
    rw [hrun]
    rfl

end Promises

end Kinesis

/-! ## One handle, once; settlement only on the event loop -/

namespace Kinesis

/-- C4: the goroutine started by one call to `AsyncClient.PutRecord` or
`AsyncClient.PutRecords` invokes exactly one of the handles `resolve` and
`reject`, exactly once, on every path: `reject` with the decode error when
decoding fails, `reject` with the transport's error when the transport fails,
`resolve` with the output otherwise. Running the goroutine therefore uses up
its registration and puts exactly one closure, for its own promise, at the end
of the event loop's queue; the goroutine is then gone. -/
theorem worker_invokes_one_handle_once {ι σ ε : Type}
    (D : Decoder ι ε) (c : client σ ε) (x : ι) (t : Transport σ)
    (w : World ι σ ε) (n : Nat) (g : Goroutine ι) :
    ((∃ h, (AsyncClient.putRecordWorker D c x t).1 = [h]) ∧
      (∀ e, (D.putRecordInput x PutRecordInput.zero).2 = some e →
        (AsyncClient.putRecordWorker D c x t).1 = [HandleCall.reject (Any.error e)]) ∧
      (∀ e, (D.putRecordInput x PutRecordInput.zero).2 = none →
        (c.PutRecord (D.putRecordInput x PutRecordInput.zero).1 t.stub).1.2 = some e →
        (AsyncClient.putRecordWorker D c x t).1 = [HandleCall.reject (Any.error e)]) ∧
      ((D.putRecordInput x PutRecordInput.zero).2 = none →
        (c.PutRecord (D.putRecordInput x PutRecordInput.zero).1 t.stub).1.2 = none →
        (AsyncClient.putRecordWorker D c x t).1 =
          [HandleCall.resolve (Any.putRecordOutput
            (c.PutRecord (D.putRecordInput x PutRecordInput.zero).1 t.stub).1.1)])) ∧
    ((∃ h, (AsyncClient.putRecordsWorker D c x t).1 = [h]) ∧
      (∀ e, (D.putRecordsInput x PutRecordsInput.zero).2 = some e →
        (AsyncClient.putRecordsWorker D c x t).1 = [HandleCall.reject (Any.error e)]) ∧
      (∀ e, (D.putRecordsInput x PutRecordsInput.zero).2 = none →
        (c.PutRecords (D.putRecordsInput x PutRecordsInput.zero).1 t.stub).1.2 = some e →
        (AsyncClient.putRecordsWorker D c x t).1 = [HandleCall.reject (Any.error e)]) ∧
      ((D.putRecordsInput x PutRecordsInput.zero).2 = none →
        (c.PutRecords (D.putRecordsInput x PutRecordsInput.zero).1 t.stub).1.2 = none →
        (AsyncClient.putRecordsWorker D c x t).1 =
          [HandleCall.resolve (Any.putRecordsOutput
            (c.PutRecords (D.putRecordsInput x PutRecordsInput.zero).1 t.stub).1.1)])) ∧
    (w.goroutines[n]? = some g →
      ∃ h, (g.body D c w.transport).1 = [h] ∧
        (w.runGoroutine D c n).loop.queue = w.loop.queue ++ [h.closure g.promise] ∧
        (h.closure g.promise).promise = g.promise ∧
        (w.runGoroutine D c n).loop.registeredCallbacks = w.loop.registeredCallbacks - 1 ∧
        (w.runGoroutine D c n).goroutines = w.goroutines.eraseIdx n) := by
  refine ⟨⟨putRecordWorker_single D c x t, ?_, ?_, ?_⟩,
    ⟨putRecordsWorker_single D c x t, ?_, ?_, ?_⟩, ?_⟩
  · intro e hd
    rw [putRecordWorker_decode_error D c x t e hd]
  · intro e hd ht
    rw [putRecordWorker_transport_error D c x t e hd ht]
  · intro hd ht
    rw [putRecordWorker_success D c x t hd ht]
  · intro e hd
    rw [putRecordsWorker_decode_error D c x t e hd]
  · intro e hd ht
    rw [putRecordsWorker_transport_error D c x t e hd ht]
  · intro hd ht
    rw [putRecordsWorker_success D c x t hd ht]
  · intro hg
    obtain ⟨h, hh, hrun⟩ := World.runGoroutine_eq D c w n g hg
    refine ⟨h, hh, by rw [hrun]; rfl, ?_, by rw [hrun]; rfl, by rw [hrun]; rfl⟩
    cases h <;> rfl

/-- C5: the promise returned by `AsyncClient.PutRecord` or
`AsyncClient.PutRecords` is pending when the method returns. Calling a handle
returned by `makeHandledPromise` leaves every promise as it is and only puts a
closure at the end of the event loop's queue; running a goroutine, or calling
the client again, leaves a pending promise pending, and so does a closure of
another promise. It is the run of the promise's own closure on the event loop
that settles it. -/
theorem promise_pending_until_callback_runs {ι σ ε : Type}
    (D : Decoder ι ε) (c : client σ ε) (x : ι) (w : World ι σ ε) (i : Any ε)
    (p n : Nat) (f : Callback ε) :
    (AsyncClient.PutRecord x w).2.promises[(AsyncClient.PutRecord x w).1]? =
      some Promise.pending ∧
    (AsyncClient.PutRecords x w).2.promises[(AsyncClient.PutRecords x w).1]? =
      some Promise.pending ∧
    ((AsyncClient.resolve p i w).promises = w.promises ∧
      (AsyncClient.resolve p i w).loop.queue = w.loop.queue ++ [Callback.resolve p i]) ∧
    ((AsyncClient.reject p i w).promises = w.promises ∧
      (AsyncClient.reject p i w).loop.queue = w.loop.queue ++ [Callback.reject p i]) ∧
    (w.runGoroutine D c n).promises = w.promises ∧
    (w.promises[p]? = some Promise.pending →
      (AsyncClient.PutRecord x w).2.promises[p]? = some Promise.pending ∧
      (AsyncClient.PutRecords x w).2.promises[p]? = some Promise.pending ∧
      (f.promise ≠ p → (f.run w).promises[p]? = some Promise.pending) ∧
      ((Callback.resolve p i).run w).promises[p]? = some (Promise.fulfilled i) ∧
      ((Callback.reject p i).run w).promises[p]? = some (Promise.rejected i)) := by
  have hnew : ∀ (l : List (Promise ε)), (l ++ [Promise.pending])[l.length]? =
      some Promise.pending := fun l => List.getElem?_concat_length l _
  refine ⟨hnew _, hnew _, ⟨rfl, rfl⟩, ⟨rfl, rfl⟩,
    World.runGoroutine_promises D c n w, ?_⟩
  intro hp
  have hlt : p < w.promises.length := by
    rcases List.getElem?_eq_some_iff.mp hp with ⟨h, -⟩
    exact h
  have hold : (w.promises ++ [Promise.pending])[p]? = some Promise.pending := by
    rw [List.getElem?_append_left hlt, hp]
  refine ⟨hold, hold, ?_, ?_, ?_⟩
  · intro hne
    rw [Callback.run_get_of_ne f w p hne, hp]
  · exact World.settle_get_of_pending p _ w hp
  · exact World.settle_get_of_pending p _ w hp

end Kinesis

/-! ## The asynchronous client settles to what the synchronous client returns -/

namespace Kinesis

section Refinement

variable {ι σ ε : Type} (D : Decoder ι ε) (c : client σ ε)

theorem World.Fresh_init (s : σ) : (World.init s : World ι σ ε).Fresh := by
  constructor <;> intro _ h <;> cases h

theorem World.Fresh_makeHandled (w : World ι σ ε) (g : Goroutine ι)
    (hg : g.promise = w.promises.length) (hw : w.Fresh) :
    World.Fresh { (AsyncClient.makeHandledPromise w).2 with
      goroutines := g :: (AsyncClient.makeHandledPromise w).2.goroutines } := by
  obtain ⟨hq, hgs⟩ := hw
  constructor
  · intro f hf
    have := hq f hf
    show f.promise < (w.promises ++ [Promise.pending]).length
    simp only [List.length_append, List.length_singleton]
    omega
  · intro g' hg'
    show g'.promise < (w.promises ++ [Promise.pending]).length
    simp only [List.length_append, List.length_singleton]
    rcases List.mem_cons.mp hg' with h | h
    · rw [h, hg]
      omega
    · have := hgs g' h
      omega

theorem World.Fresh_runGoroutine (w : World ι σ ε) (n : Nat) (hw : w.Fresh) :
    (w.runGoroutine D c n).Fresh := by
  rcases hg : w.goroutines[n]? with _ | g
  · rw [World.runGoroutine_none D c w n hg]
    exact hw
  · obtain ⟨h, -, hrun⟩ := World.runGoroutine_eq D c w n g hg
    rw [hrun]
    obtain ⟨hq, hgs⟩ := hw
    constructor
    · intro f hf
      show f.promise < w.promises.length
      have hf' : f ∈ w.loop.queue ++ [h.closure g.promise] := hf
      rcases List.mem_append.mp hf' with h1 | h1
      · exact hq f h1
      · rw [List.mem_singleton.mp h1]
        have := hgs g (List.getElem?_mem hg)
        cases h <;> exact this
    · intro g' hg'
      exact hgs g' (List.mem_of_mem_eraseIdx hg')

theorem World.Fresh_runCallback (w : World ι σ ε) (hw : w.Fresh) :
    w.runCallback.Fresh := by
  unfold World.runCallback
  rcases hq : w.loop.queue with _ | ⟨f, rest⟩
  · exact hw
  · obtain ⟨h1, h2⟩ := hw
    simp only
    constructor
    · intro f' hf'
      rw [Callback.run_promises_length]
      rw [Callback.run_loop] at hf'
      exact h1 f' (by rw [hq]; exact List.mem_cons_of_mem _ hf')
    · intro g hg
      rw [Callback.run_promises_length]
      rw [Callback.run_goroutines] at hg
      exact h2 g hg

/-- Every reachable world is fresh. -/
theorem Reachable.fresh {s : σ} {w : World ι σ ε} (hw : Reachable D c s w) : w.Fresh := by
  induction hw with
  | init => exact World.Fresh_init s
  | putRecord x _ ih => exact World.Fresh_makeHandled _ _ rfl ih
  | putRecords x _ ih => exact World.Fresh_makeHandled _ _ rfl ih
  | goroutine n _ ih => exact World.Fresh_runGoroutine D c _ n ih
  | callback _ ih => exact World.Fresh_runCallback _ ih

theorem putRecordWorker_settled (x : ι) (t : Transport σ) (h : HandleCall ε)
    (hh : (AsyncClient.putRecordWorker D c x t).1 = [h]) :
    h.settled = Promise.ofResult (SyncClient.PutRecord D c x t).1 := by
  unfold AsyncClient.putRecordWorker at hh
  unfold SyncClient.PutRecord
  rcases hx : D.putRecordInput x PutRecordInput.zero with ⟨req, _ | err⟩
  · rw [hx] at hh
    simp only at hh ⊢
    rcases ht : (c.invokePutRecord req t).1.2 with _ | e
    · rw [ht] at hh
      simp only [List.cons.injEq, and_true] at hh
      subst hh
      simp only [HandleCall.settled, Promise.ofResult]
    · rw [ht] at hh
      simp only [List.cons.injEq, and_true] at hh
      subst hh
      simp only [HandleCall.settled, Promise.ofResult]
  · rw [hx] at hh
    simp only [List.cons.injEq, and_true] at hh
    subst hh
    rfl

theorem putRecordsWorker_settled (x : ι) (t : Transport σ) (h : HandleCall ε)
    (hh : (AsyncClient.putRecordsWorker D c x t).1 = [h]) :
    h.settled = Promise.ofResult (SyncClient.PutRecords D c x t).1 := by
  unfold AsyncClient.putRecordsWorker at hh
  unfold SyncClient.PutRecords
  rcases hx : D.putRecordsInput x PutRecordsInput.zero with ⟨req, _ | err⟩
  · rw [hx] at hh
    simp only at hh ⊢
    rcases ht : (c.invokePutRecords req t).1.2 with _ | e
    · rw [ht] at hh
      simp only [List.cons.injEq, and_true] at hh
      subst hh
      simp only [HandleCall.settled, Promise.ofResult]
    · rw [ht] at hh
      simp only [List.cons.injEq, and_true] at hh
      subst hh
      simp only [HandleCall.settled, Promise.ofResult]
  · rw [hx] at hh
    simp only [List.cons.injEq, and_true] at hh
    subst hh
    rfl

theorem Callback.run_closure_of_pending (q : Nat) (h : HandleCall ε) (w : World ι σ ε)
    (hq : w.promises[q]? = some Promise.pending) :
    ((h.closure q).run w).promises[q]? = some h.settled := by
  cases h <;> exact World.settle_get_of_pending q _ w hq

/-- The goroutine at position `n` runs, then the event loop drains its queue:
when the goroutine's promise was pending and no closure in the queue was for
it, the promise is settled as the goroutine's one handle invocation says. -/
theorem World.runLoop_runGoroutine (w : World ι σ ε) (n : Nat) (g : Goroutine ι)
    (hg : w.goroutines[n]? = some g)
    (hp : w.promises[g.promise]? = some Promise.pending)
    (hq : ∀ f ∈ w.loop.queue, f.promise ≠ g.promise) :
    ∃ h, (g.body D c w.transport).1 = [h] ∧
      (w.runGoroutine D c n).runLoop.promises[g.promise]? = some h.settled := by
  obtain ⟨h, hh, hrun⟩ := World.runGoroutine_eq D c w n g hg
  refine ⟨h, hh, ?_⟩
  rw [hrun]
  unfold World.runLoop
  simp only [World.callback, List.foldl_append, List.foldl_cons, List.foldl_nil]
  apply Callback.run_closure_of_pending
  rw [foldl_run_get_of_ne _ _ hq]
  exact hp

theorem SyncClient.PutRecord_decode_error (x : ι) (t : Transport σ) (e : ε)
    (hd : (D.putRecordInput x PutRecordInput.zero).2 = some e) :
    SyncClient.PutRecord D c x t = ((Any.nil, some e), t) := by
  unfold SyncClient.PutRecord
  rcases hx : D.putRecordInput x PutRecordInput.zero with ⟨req, err⟩
  rw [hx] at hd
  cases hd
  rfl

theorem SyncClient.PutRecords_decode_error (x : ι) (t : Transport σ) (e : ε)
    (hd : (D.putRecordsInput x PutRecordsInput.zero).2 = some e) :
    SyncClient.PutRecords D c x t = ((Any.nil, some e), t) := by
  unfold SyncClient.PutRecords
  rcases hx : D.putRecordsInput x PutRecordsInput.zero with ⟨req, err⟩
  rw [hx] at hd
  cases hd
  rfl

/-- Call `AsyncClient.PutRecord` in a fresh world, run its goroutine, drain the
queue: the promise reports the synchronous outcome. -/
theorem AsyncClient.PutRecord_settles (w : World ι σ ε) (hw : w.Fresh) (x : ι) :
    ((AsyncClient.PutRecord x w).2.runGoroutine D c 0).runLoop.promises[
        (AsyncClient.PutRecord x w).1]? =
      some (Promise.ofResult (SyncClient.PutRecord D c x w.transport).1) := by
  have hne : ∀ f ∈ w.loop.queue, f.promise ≠ w.promises.length :=
    fun f hf => Nat.ne_of_lt (hw.1 f hf)
  have hpend : (w.promises ++ [Promise.pending])[w.promises.length]? =
      some Promise.pending := List.getElem?_concat_length _ _
  obtain ⟨h, hh, hrun⟩ := World.runLoop_runGoroutine D c
    (AsyncClient.PutRecord x w).2 0 (Goroutine.putRecord w.promises.length x)
    List.getElem?_cons_zero hpend hne
  rw [← putRecordWorker_settled D c x w.transport h hh]
  exact hrun

/-- Call `AsyncClient.PutRecords` in a fresh world, run its goroutine, drain
the queue: the promise reports the synchronous outcome. -/
theorem AsyncClient.PutRecords_settles (w : World ι σ ε) (hw : w.Fresh) (x : ι) :
    ((AsyncClient.PutRecords x w).2.runGoroutine D c 0).runLoop.promises[
        (AsyncClient.PutRecords x w).1]? =
      some (Promise.ofResult (SyncClient.PutRecords D c x w.transport).1) := by
  have hne : ∀ f ∈ w.loop.queue, f.promise ≠ w.promises.length :=
    fun f hf => Nat.ne_of_lt (hw.1 f hf)
  have hpend : (w.promises ++ [Promise.pending])[w.promises.length]? =
      some Promise.pending := List.getElem?_concat_length _ _
  obtain ⟨h, hh, hrun⟩ := World.runLoop_runGoroutine D c
    (AsyncClient.PutRecords x w).2 0 (Goroutine.putRecords w.promises.length x)
    List.getElem?_cons_zero hpend hne
  rw [← putRecordsWorker_settled D c x w.transport h hh]
  exact hrun

end Refinement

end Kinesis

namespace Kinesis

/-- C3: in every reachable world, call `AsyncClient.PutRecord` (or
`AsyncClient.PutRecords`) with input `x`, let the goroutine it started run, and
let the event loop drain its queue: the returned promise is then settled to
the outcome of `SyncClient.PutRecord` (or `SyncClient.PutRecords`) for the same
input on the same transport. It is rejected with the error `e` exactly when
the synchronous call returns the error `e`, and fulfilled with `o` exactly when
the synchronous call returns `(o, nil)`. -/
theorem async_promise_settles_as_sync_returns {ι σ ε : Type}
    (D : Decoder ι ε) (c : client σ ε) (s : σ) (w : World ι σ ε)
    (hw : Reachable D c s w) (x : ι) :
    (((AsyncClient.PutRecord x w).2.runGoroutine D c 0).runLoop.promises[
          (AsyncClient.PutRecord x w).1]? =
        some (Promise.ofResult (SyncClient.PutRecord D c x w.transport).1) ∧
      (∀ e, ((AsyncClient.PutRecord x w).2.runGoroutine D c 0).runLoop.promises[
            (AsyncClient.PutRecord x w).1]? = some (Promise.rejected (Any.error e)) ↔
          (SyncClient.PutRecord D c x w.transport).1.2 = some e) ∧
      (∀ o, ((AsyncClient.PutRecord x w).2.runGoroutine D c 0).runLoop.promises[
            (AsyncClient.PutRecord x w).1]? = some (Promise.fulfilled o) ↔
          (SyncClient.PutRecord D c x w.transport).1 = (o, none))) ∧
    (((AsyncClient.PutRecords x w).2.runGoroutine D c 0).runLoop.promises[
          (AsyncClient.PutRecords x w).1]? =
        some (Promise.ofResult (SyncClient.PutRecords D c x w.transport).1) ∧
      (∀ e, ((AsyncClient.PutRecords x w).2.runGoroutine D c 0).runLoop.promises[
            (AsyncClient.PutRecords x w).1]? = some (Promise.rejected (Any.error e)) ↔
          (SyncClient.PutRecords D c x w.transport).1.2 = some e) ∧
      (∀ o, ((AsyncClient.PutRecords x w).2.runGoroutine D c 0).runLoop.promises[
            (AsyncClient.PutRecords x w).1]? = some (Promise.fulfilled o) ↔
          (SyncClient.PutRecords D c x w.transport).1 = (o, none))) := by
  have hfresh := Reachable.fresh D c hw
  -- the two iff statements follow from the equation
  have split : ∀ (P : Option (Promise ε)) (r : Any ε × Option ε),
      P = some (Promise.ofResult r) →
      (P = some (Promise.ofResult r) ∧
        (∀ e, P = some (Promise.rejected (Any.error e)) ↔ r.2 = some e) ∧
        (∀ o, P = some (Promise.fulfilled o) ↔ r = (o, none))) := by
    intro P r hP
    subst hP
    rcases r with ⟨o', _ | e'⟩
    · refine ⟨rfl, fun e => ?_, fun o => ?_⟩
      · simp [Promise.ofResult]
      · simp [Promise.ofResult]
    · refine ⟨rfl, fun e => ?_, fun o => ?_⟩
      · simp [Promise.ofResult]
      · simp [Promise.ofResult]
  exact ⟨split _ _ (AsyncClient.PutRecord_settles D c w hfresh x),
    split _ _ (AsyncClient.PutRecords_settles D c w hfresh x)⟩

end Kinesis

/-! ## The theorems at the inputs of the tests -/

namespace Kinesis

/-- C2 at the test input: the goroutine started for the well-formed record
invokes `PutRecord` once, with the decoded record. -/
theorem transport_invoked_once_iff_decoded_witness :
    (helloWorldStarted.runGoroutine mapstructure returnsSequenceNumber01 0).transport.calls =
      [] ++ [Call.PutRecord
        { Data := [104, 101, 108, 108, 111, 32, 119, 111, 114, 108, 100],
          PartitionKey := some "pk", StreamName := some "stream",
          ExplicitHashKey := none, SequenceNumberForOrdering := none }] ∧
    (SyncClient.PutRecord mapstructure returnsSequenceNumber01 numberAsData
      { stub := (), calls := [] }).2.calls = [] :=
  ⟨((transport_invoked_once_iff_decoded mapstructure returnsSequenceNumber01
      helloWorldRecord { stub := (), calls := [] } helloWorldStarted 0 0).2.2.2.2.1
      (by decide)).2.2 (by decide),
   congrArg Transport.calls
    ((transport_invoked_once_iff_decoded mapstructure returnsSequenceNumber01
      numberAsData { stub := (), calls := [] } helloWorldStarted 0 0).1.1
      (error.decode { path := "Data", reason := Reason.notArrayOrSlice (Value.int 123) })
      (by decide))⟩

/-- C3 at the test inputs: with the transport that returns "01" the promise
for the well-formed record is fulfilled with that output; with the throttled
transport it is rejected with the transport's error. -/
theorem async_promise_settles_as_sync_returns_witness :
    ((AsyncClient.PutRecord helloWorldRecord
        (World.init () : World Input Unit error)).2.runGoroutine mapstructure
          returnsSequenceNumber01 0).runLoop.promises[0]? =
      some (Promise.fulfilled (Any.putRecordOutput (some { SequenceNumber := some "01" }))) ∧
    ((AsyncClient.PutRecord helloWorldRecord
        (World.init () : World Input Unit error)).2.runGoroutine mapstructure
          throttled 0).runLoop.promises[0]? =
      some (Promise.rejected
        (Any.error (ProvisionedThroughputExceededException "<error msg>"))) :=
  ⟨((async_promise_settles_as_sync_returns mapstructure returnsSequenceNumber01 ()
      (World.init ()) Reachable.init helloWorldRecord).1.2.2 _).mpr (by decide),
   ((async_promise_settles_as_sync_returns mapstructure throttled ()
      (World.init ()) Reachable.init helloWorldRecord).1.2.1 _).mpr (by decide)⟩

/-- C4 at the test input: the goroutine started for the well-formed record
puts one closure, for promise 0, in the queue. -/
theorem worker_invokes_one_handle_once_witness :
    ∃ h, (AsyncClient.putRecordWorker mapstructure returnsSequenceNumber01
        helloWorldRecord { stub := (), calls := [] }).1 = [h] ∧
      (helloWorldStarted.runGoroutine mapstructure returnsSequenceNumber01 0).loop.queue =
        [] ++ [h.closure 0] :=
  let ⟨h, hb, hq, _⟩ := (worker_invokes_one_handle_once mapstructure returnsSequenceNumber01
    helloWorldRecord { stub := (), calls := [] } helloWorldStarted 0
    (Goroutine.putRecord 0 helloWorldRecord)).2.2 (by decide)
  ⟨h, hb, hq⟩

/-- C5 at the test input: promise 0 of the started call is pending, and the
run of its closure fulfils it. -/
theorem promise_pending_until_callback_runs_witness :
    helloWorldStarted.promises[0]? = some Promise.pending ∧
    ((Callback.resolve 0 Any.nil).run helloWorldStarted).promises[0]? =
      some (Promise.fulfilled Any.nil) :=
  ⟨by decide,
   ((promise_pending_until_callback_runs mapstructure returnsSequenceNumber01
      helloWorldRecord helloWorldStarted Any.nil 0 0 (Callback.resolve 0 Any.nil)).2.2.2.2.2
      (by decide)).2.2.2.1⟩

end Kinesis

/-! ## The root package's client drops the decode error -/

namespace Kinesis

/-- C7 (the root package's `Client`): whatever decoding says, `Client.PutRecord`
and `Client.PutRecords` invoke the transport with what the decoder left in the
request and return only the transport's error. For the number 123 as `Data`
(and as the partition key of a batch entry) decoding fails, yet the transport
is invoked with a request that holds no data and the caller gets no error,
where `SyncClient` returns the decode error and leaves the transport alone. -/
theorem root_Client_drops_decode_error :
    (∀ {ι σ ε : Type} (D : Decoder ι ε) (c : client σ ε) (x : ι) (t : Transport σ),
      ((Client.PutRecord D c x t).1 =
          (c.PutRecord (D.putRecordInput x PutRecordInput.zero).1 t.stub).1.2 ∧
        (Client.PutRecord D c x t).2.calls =
          t.calls ++ [Call.PutRecord (D.putRecordInput x PutRecordInput.zero).1]) ∧
      ((Client.PutRecords D c x t).1 =
          (c.PutRecords (D.putRecordsInput x PutRecordsInput.zero).1 t.stub).1.2 ∧
        (Client.PutRecords D c x t).2.calls =
          t.calls ++ [Call.PutRecords (D.putRecordsInput x PutRecordsInput.zero).1])) ∧
    ((mapstructure.putRecordInput numberAsData PutRecordInput.zero).2 =
        some (error.decode
          { path := "Data", reason := Reason.notArrayOrSlice (Value.int 123) }) ∧
      (Client.PutRecord mapstructure returnsSequenceNumber01 numberAsData
        { stub := (), calls := [] }).1 = none ∧
      (Client.PutRecord mapstructure returnsSequenceNumber01 numberAsData
        { stub := (), calls := [] }).2.calls = [Call.PutRecord PutRecordInput.zero] ∧
      (SyncClient.PutRecord mapstructure returnsSequenceNumber01 numberAsData
        { stub := (), calls := [] }).1.2 =
        some (error.decode
          { path := "Data", reason := Reason.notArrayOrSlice (Value.int 123) }) ∧
      (SyncClient.PutRecord mapstructure returnsSequenceNumber01 numberAsData
        { stub := (), calls := [] }).2.calls = []) ∧
    ((mapstructure.putRecordsInput numberAsPartitionKey PutRecordsInput.zero).2 =
        some (error.decode
          { path := "Records[0].PartitionKey", reason := Reason.notString (Value.int 123) }) ∧
      (Client.PutRecords mapstructure returnsSequenceNumber01 numberAsPartitionKey
        { stub := (), calls := [] }).1 = none ∧
      (Client.PutRecords mapstructure returnsSequenceNumber01 numberAsPartitionKey
        { stub := (), calls := [] }).2.calls =
        [Call.PutRecords { Records := [PutRecordsRequestEntry.zero], StreamName := none }] ∧
      (SyncClient.PutRecords mapstructure returnsSequenceNumber01 numberAsPartitionKey
        { stub := (), calls := [] }).2.calls = []) := by
  refine ⟨?_, ?_, ?_⟩
  · intro ι σ ε D c x t
    exact ⟨⟨rfl, rfl⟩, ⟨rfl, rfl⟩⟩
  · refine ⟨by decide, by decide, by decide, by decide, by decide⟩
  · refine ⟨by decide, by decide, by decide, by decide⟩

end Kinesis

/-! ## Lemmas on the request decoder -/

namespace Kinesis

theorem bytesField_cases {input : List (String × Value)} {name : String}
    (h : bytesField input name) :
    input.lookup name = none ∨ ∃ b, input.lookup name = some (Value.bytes b) := by
  rcases e : input.lookup name with _ | v
  · exact Or.inl rfl
  · obtain ⟨b, rfl⟩ := h v e
    exact Or.inr ⟨b, rfl⟩

theorem stringField_cases {input : List (String × Value)} {name : String}
    (h : stringField input name) :
    input.lookup name = none ∨ ∃ x, input.lookup name = some (Value.str x) := by
  rcases e : input.lookup name with _ | v
  · exact Or.inl rfl
  · obtain ⟨x, rfl⟩ := h v e
    exact Or.inr ⟨x, rfl⟩

theorem stringField_of_none {input : List (String × Value)} {name : String}
    (h : input.lookup name = none) : stringField input name := by
  intro v hv
  rw [h] at hv
  cases hv

theorem stringField_of_str {input : List (String × Value)} {name : String} (x : String)
    (h : input.lookup name = some (Value.str x)) : stringField input name := by
  intro v hv
  rw [h] at hv
  exact ⟨x, (Option.some.inj hv).symm⟩

theorem bytesField_of_none {input : List (String × Value)} {name : String}
    (h : input.lookup name = none) : bytesField input name := by
  intro v hv
  rw [h] at hv
  cases hv

theorem bytesField_of_bytes {input : List (String × Value)} {name : String} (b : List Nat)
    (h : input.lookup name = some (Value.bytes b)) : bytesField input name := by
  intro v hv
  rw [h] at hv
  exact ⟨b, (Option.some.inj hv).symm⟩

theorem decodePutRecordInput_wellTyped (input : List (String × Value))
    (h : wellTypedRecord input) :
    decodePutRecordInput input PutRecordInput.zero = (suppliedRecord input, none) := by
  obtain ⟨h1, h2, h3, h4, h5⟩ := h
  rcases bytesField_cases h1 with e1 | ⟨b, e1⟩ <;>
  rcases stringField_cases h2 with e2 | ⟨x2, e2⟩ <;>
  rcases stringField_cases h3 with e3 | ⟨x3, e3⟩ <;>
  rcases stringField_cases h4 with e4 | ⟨x4, e4⟩ <;>
  rcases stringField_cases h5 with e5 | ⟨x5, e5⟩ <;>
  simp only [decodePutRecordInput, decodeField, decodeBytes, decodeString, suppliedRecord,
    suppliedBytes, suppliedString, PutRecordInput.zero, e1, e2, e3, e4, e5]

theorem decodePutRecordInput_number_as_Data (input : List (String × Value)) (n : Int)
    (hData : input.lookup "Data" = some (Value.int n)) :
    decodePutRecordInput input PutRecordInput.zero =
      (PutRecordInput.zero,
        some { path := "Data", reason := Reason.notArrayOrSlice (Value.int n) }) := by
  simp only [decodePutRecordInput, decodeField, decodeBytes, hData]

theorem decodeEntry_wellTyped (i : Nat) (input : List (String × Value))
    (h : wellTypedEntry input) : decodeEntry i input = (suppliedEntry input, none) := by
  obtain ⟨h1, h2, h3, h4⟩ := h
  rcases bytesField_cases h1 with e1 | ⟨b, e1⟩ <;>
  rcases stringField_cases h2 with e2 | ⟨x2, e2⟩ <;>
  rcases stringField_cases h3 with e3 | ⟨x3, e3⟩ <;>
  rcases stringField_cases h4 with e4 | ⟨x4, e4⟩ <;>
  simp only [decodeEntry, decodeField, decodeBytes, decodeString, suppliedEntry,
    suppliedBytes, suppliedString, PutRecordsRequestEntry.zero, e1, e2, e3, e4]

theorem decodeEntry_number_as_PartitionKey (i : Nat) (input : List (String × Value))
    (n : Int) (hData : bytesField input "Data")
    (hpk : input.lookup "PartitionKey" = some (Value.int n)) :
    (decodeEntry i input).2 =
      some { path := entryPath i "PartitionKey", reason := Reason.notString (Value.int n) } := by
  rcases bytesField_cases hData with e1 | ⟨b, e1⟩ <;>
  simp only [decodeEntry, decodeField, decodeBytes, decodeString, e1, hpk]

theorem decodeEntries_wellTyped (rs : List (List (String × Value))) (i : Nat)
    (h : ∀ r ∈ rs, wellTypedEntry r) :
    decodeEntries i rs = (rs.map suppliedEntry, none) := by
  induction rs generalizing i with
  | nil => rfl
  | cons r rs ih =>
    unfold decodeEntries
    rw [decodeEntry_wellTyped i r (h r (List.mem_cons_self _ _))]
    simp only [ih (i + 1) (fun r' hr' => h r' (List.mem_cons_of_mem _ hr')), List.map_cons]

/-- The entries before position `k` are well typed and the entry at `k`
fails: its error is the error of the whole sequence. -/
theorem decodeEntries_error_at (rs : List (List (String × Value))) (i k : Nat)
    (r : List (String × Value)) (e : DecodeError) (hk : rs[k]? = some r)
    (hbefore : ∀ j, j < k → ∀ r', rs[j]? = some r' → wellTypedEntry r')
    (he : (decodeEntry (i + k) r).2 = some e) : (decodeEntries i rs).2 = some e := by
  induction rs generalizing i k with
  | nil => simp at hk
  | cons r0 rs ih =>
    unfold decodeEntries
    cases k with
    | zero =>
      simp only [List.getElem?_cons_zero, Option.some.injEq] at hk
      subst hk
      rcases hd : decodeEntry i r0 with ⟨ent, err⟩
      rw [Nat.add_zero, hd] at he
      simp only at he
      subst he
      rfl
    | succ k =>
      have h0 : wellTypedEntry r0 := hbefore 0 (Nat.succ_pos k) r0 (by simp)
      rw [decodeEntry_wellTyped i r0 h0]
      simp only
      simp only [List.getElem?_cons_succ] at hk
      apply ih (i + 1) k hk
      · intro j hj r' hr'
        exact hbefore (j + 1) (Nat.succ_lt_succ hj) r' (by simpa using hr')
      · rw [show i + 1 + k = i + (k + 1) by omega]
        exact he

theorem decodePutRecordsInput_wellTyped (x : Input) (h : wellTypedBatch x) :
    decodePutRecordsInput x PutRecordsInput.zero = (suppliedBatch x, none) := by
  obtain ⟨h1, h2⟩ := h
  rcases hr : x.Records with _ | rs
  · rcases stringField_cases h2 with e2 | ⟨x2, e2⟩ <;>
    simp only [decodePutRecordsInput, decodeField, decodeString, suppliedBatch,
      suppliedString, PutRecordsInput.zero, hr, e2, Option.getD_none, List.map_nil]
  · have hrs := decodeEntries_wellTyped rs 0 (h1 rs hr)
    rcases stringField_cases h2 with e2 | ⟨x2, e2⟩ <;>
    simp only [decodePutRecordsInput, decodeField, decodeString, suppliedBatch,
      suppliedString, PutRecordsInput.zero, hr, e2, hrs, Option.getD_some]

theorem decodePutRecordsInput_error_at (x : Input) (rs : List (List (String × Value)))
    (k : Nat) (r : List (String × Value)) (e : DecodeError)
    (hr : x.Records = some rs) (hk : rs[k]? = some r)
    (hbefore : ∀ j, j < k → ∀ r', rs[j]? = some r' → wellTypedEntry r')
    (he : (decodeEntry k r).2 = some e) :
    (decodePutRecordsInput x PutRecordsInput.zero).2 = some e := by
  have hes := decodeEntries_error_at rs 0 k r e hk hbefore (by rw [Nat.zero_add]; exact he)
  simp only [decodePutRecordsInput, hr, hes, decodeField]

end Kinesis

/-! ## Decode errors and faithful decoding -/

namespace Kinesis

/-- C8: for every record input whose `Data` is a bare integer (the other
present fields being strings), decoding fails with the error that names the
field `Data`; its text is "1 error(s) decoding:" followed by a blank line and
"* 'Data': source data must be an array or slice, got int". The synchronous
client returns this error, and the promise of the asynchronous client is
rejected with it. -/
theorem number_as_Data_is_a_decode_error (x : Input) (n : Int)
    (hData : x.fields.lookup "Data" = some (Value.int n))
    (_hOthers : stringField x.fields "PartitionKey" ∧ stringField x.fields "StreamName" ∧
      stringField x.fields "ExplicitHashKey" ∧
      stringField x.fields "SequenceNumberForOrdering") :
    (mapstructure.putRecordInput x PutRecordInput.zero).2 =
      some (error.decode
        { path := "Data", reason := Reason.notArrayOrSlice (Value.int n) }) ∧
    (error.decode
        { path := "Data", reason := Reason.notArrayOrSlice (Value.int n) }).Error =
      "1 error(s) decoding:\n\n* 'Data': source data must be an array or slice, got int" ∧
    (∀ {σ : Type} (c : client σ error) (t : Transport σ),
      (SyncClient.PutRecord mapstructure c x t).1 =
        (Any.nil, some (error.decode
          { path := "Data", reason := Reason.notArrayOrSlice (Value.int n) }))) ∧
    (∀ {σ : Type} (c : client σ error) (s : σ) (w : World Input σ error),
      Reachable mapstructure c s w →
      ((AsyncClient.PutRecord x w).2.runGoroutine mapstructure c 0).runLoop.promises[
          (AsyncClient.PutRecord x w).1]? =
        some (Promise.rejected (Any.error (error.decode
          { path := "Data", reason := Reason.notArrayOrSlice (Value.int n) })))) := by
  have hdec : (mapstructure.putRecordInput x PutRecordInput.zero).2 =
      some (error.decode
        { path := "Data", reason := Reason.notArrayOrSlice (Value.int n) }) := by
    simp only [mapstructure, decodePutRecordInput_number_as_Data x.fields n hData,
      Option.map_some']
  refine ⟨hdec, rfl, ?_, ?_⟩
  · intro σ c t
    rw [SyncClient.PutRecord_decode_error mapstructure c x t _ hdec]
  · intro σ c s w hw
    rw [AsyncClient.PutRecord_settles mapstructure c w (Reachable.fresh mapstructure c hw) x,
      SyncClient.PutRecord_decode_error mapstructure c x w.transport _ hdec]
    rfl

/-- C8 at the input of the tests, `Data` being the number 123. -/
theorem number_as_Data_is_a_decode_error_witness :
    ((mapstructure.putRecordInput numberAsData PutRecordInput.zero).2.map error.Error =
      some "1 error(s) decoding:\n\n* 'Data': source data must be an array or slice, got int") ∧
    (SyncClient.PutRecord mapstructure returnsSequenceNumber01 numberAsData
        { stub := (), calls := [] }).1 =
      (Any.nil, some (error.decode
        { path := "Data", reason := Reason.notArrayOrSlice (Value.int 123) })) :=
  have h := number_as_Data_is_a_decode_error numberAsData 123 (by decide)
    ⟨stringField_of_none (by decide), stringField_of_none (by decide),
      stringField_of_none (by decide), stringField_of_none (by decide)⟩
  ⟨by rw [h.1, Option.map_some', h.2.1], h.2.2.1 returnsSequenceNumber01 _⟩

/-- C9: for every batch input in which the partition key of the record at
index `i` is a bare integer, every other present field being correctly typed,
decoding fails with the error whose path is `Records[i].PartitionKey`, with
that index; its text is "1 error(s) decoding:", a blank line, and
"* 'Records[i].PartitionKey' expected type 'string', got unconvertible type
'int', value: 'n'" with the index and the number printed in decimal. The
synchronous client returns this error, and the promise of the asynchronous
client is rejected with it. -/
theorem number_as_PartitionKey_is_a_decode_error (x : Input)
    (rs : List (List (String × Value))) (i : Nat) (r : List (String × Value)) (n : Int)
    (hrs : x.Records = some rs) (hi : rs[i]? = some r)
    (hpk : r.lookup "PartitionKey" = some (Value.int n))
    (hr : bytesField r "Data" ∧ stringField r "ExplicitHashKey" ∧
      stringField r "SequenceNumberForOrdering")
    (hrest : ∀ j, j ≠ i → ∀ r', rs[j]? = some r' → wellTypedEntry r')
    (_hStream : stringField x.fields "StreamName") :
    (mapstructure.putRecordsInput x PutRecordsInput.zero).2 =
      some (error.decode
        { path := entryPath i "PartitionKey", reason := Reason.notString (Value.int n) }) ∧
    (error.decode
        { path := entryPath i "PartitionKey",
          reason := Reason.notString (Value.int n) }).Error =
      "1 error(s) decoding:\n\n* 'Records[" ++ toString i ++
        "].PartitionKey' expected type 'string', got unconvertible type 'int', value: '" ++
        toString n ++ "'" ∧
    (∀ {σ : Type} (c : client σ error) (t : Transport σ),
      (SyncClient.PutRecords mapstructure c x t).1 =
        (Any.nil, some (error.decode
          { path := entryPath i "PartitionKey",
            reason := Reason.notString (Value.int n) }))) ∧
    (∀ {σ : Type} (c : client σ error) (s : σ) (w : World Input σ error),
      Reachable mapstructure c s w →
      ((AsyncClient.PutRecords x w).2.runGoroutine mapstructure c 0).runLoop.promises[
          (AsyncClient.PutRecords x w).1]? =
        some (Promise.rejected (Any.error (error.decode
          { path := entryPath i "PartitionKey",
            reason := Reason.notString (Value.int n) })))) := by
  have hdec : (mapstructure.putRecordsInput x PutRecordsInput.zero).2 =
      some (error.decode
        { path := entryPath i "PartitionKey",
          reason := Reason.notString (Value.int n) }) := by
    have h := decodePutRecordsInput_error_at x rs i r _ hrs hi
      (fun j hj r' hr' => hrest j (Nat.ne_of_lt hj) r' hr')
      (decodeEntry_number_as_PartitionKey i r n hr.1 hpk)
    simp only [mapstructure, h, Option.map_some']
  refine ⟨hdec, ?_, ?_, ?_⟩
  · apply String.ext
    simp only [error.Error, DecodeError.Error, entryPath, Value.typeName, Value.format,
      String.data_append, List.append_assoc]
    rfl
  · intro σ c t
    rw [SyncClient.PutRecords_decode_error mapstructure c x t _ hdec]
  · intro σ c s w hw
    rw [AsyncClient.PutRecords_settles mapstructure c w (Reachable.fresh mapstructure c hw) x,
      SyncClient.PutRecords_decode_error mapstructure c x w.transport _ hdec]
    rfl

/-- C9 at the input of the tests: the only record has the number 123 as its
partition key. -/
theorem number_as_PartitionKey_is_a_decode_error_witness :
    (mapstructure.putRecordsInput numberAsPartitionKey PutRecordsInput.zero).2.map
        error.Error =
      some ("1 error(s) decoding:\n\n* 'Records[0].PartitionKey' expected type 'string', " ++
        "got unconvertible type 'int', value: '123'") :=
  have h := number_as_PartitionKey_is_a_decode_error numberAsPartitionKey
    [[("PartitionKey", Value.int 123)]] 0 [("PartitionKey", Value.int 123)] 123
    (by decide) (by decide) (by decide)
    ⟨bytesField_of_none (by decide), stringField_of_none (by decide),
      stringField_of_none (by decide)⟩
    (fun j hj r' hr' => by
      cases j with
      | zero => exact absurd rfl hj
      | succ j => simp at hr')
    (stringField_of_none (by decide))
  by rw [h.1, Option.map_some', h.2.1]; decide

/-- C10: a record input, or a batch input, in which every present field has
the type its shape asks for decodes without error; every recognised field of
the typed request (`Data`, `PartitionKey`, `StreamName`, `ExplicitHashKey`,
`SequenceNumberForOrdering`, and the entries of `Records` in order) is the
value supplied, every absent field is left at its zero value, and this is the
request the synchronous client passes to the transport. -/
theorem well_typed_input_decodes_to_supplied_values (x : Input) :
    (wellTypedRecord x.fields →
      mapstructure.putRecordInput x PutRecordInput.zero = (suppliedRecord x.fields, none) ∧
      (∀ {σ : Type} (c : client σ error) (t : Transport σ),
        (SyncClient.PutRecord mapstructure c x t).2.calls =
          t.calls ++ [Call.PutRecord (suppliedRecord x.fields)])) ∧
    (wellTypedBatch x →
      mapstructure.putRecordsInput x PutRecordsInput.zero = (suppliedBatch x, none) ∧
      (∀ {σ : Type} (c : client σ error) (t : Transport σ),
        (SyncClient.PutRecords mapstructure c x t).2.calls =
          t.calls ++ [Call.PutRecords (suppliedBatch x)])) ∧
    (∀ (input : List (String × Value)) (name : String),
      (∀ b, input.lookup name = some (Value.bytes b) → suppliedBytes input name = b) ∧
      (input.lookup name = none → suppliedBytes input name = []) ∧
      (∀ v, input.lookup name = some (Value.str v) → suppliedString input name = some v) ∧
      (input.lookup name = none → suppliedString input name = none)) := by
  refine ⟨?_, ?_, ?_⟩
  · intro h
    have hdec : mapstructure.putRecordInput x PutRecordInput.zero =
        (suppliedRecord x.fields, none) := by
      simp only [mapstructure, decodePutRecordInput_wellTyped x.fields h, Option.map_none']
    refine ⟨hdec, ?_⟩
    intro σ c t
    unfold SyncClient.PutRecord
    rw [hdec]
    rfl
  · intro h
    have hdec : mapstructure.putRecordsInput x PutRecordsInput.zero =
        (suppliedBatch x, none) := by
      simp only [mapstructure, decodePutRecordsInput_wellTyped x h, Option.map_none']
    refine ⟨hdec, ?_⟩
    intro σ c t
    unfold SyncClient.PutRecords
    rw [hdec]
    rfl
  · intro input name
    refine ⟨?_, ?_, ?_, ?_⟩
    · intro b hb
      simp only [suppliedBytes, hb]
    · intro hb
      simp only [suppliedBytes, hb]
    · intro v hv
      simp only [suppliedString, hv]
    · intro hv
      simp only [suppliedString, hv]

/-- C10 at the input of the tests that gives only `Data`: the request passed
to the transport carries the data and nothing else. -/
theorem well_typed_input_decodes_to_supplied_values_witness :
    mapstructure.putRecordInput onlyData PutRecordInput.zero =
      ({ Data := [104, 101, 108, 108, 111, 32, 119, 111, 114, 108, 100],
         PartitionKey := none, StreamName := none, ExplicitHashKey := none,
         SequenceNumberForOrdering := none }, none) :=
  ((well_typed_input_decodes_to_supplied_values onlyData).1
    ⟨bytesField_of_bytes [104, 101, 108, 108, 111, 32, 119, 111, 114, 108, 100] (by decide),
      stringField_of_none (by decide),
      stringField_of_none (by decide), stringField_of_none (by decide),
      stringField_of_none (by decide)⟩).1

end Kinesis

/-! ## The endpoint resolver -/

namespace Kinesis

theorem endpointResolver_of_ne (u : String) (hu : u ≠ "") (service region : String)
    (options : List String) :
    endpointResolver u service region options = ({ URL := u }, none) := by
  unfold endpointResolver
  rw [if_pos (by simpa using hu)]

theorem endpointResolver_empty (service region : String) (options : List String) :
    endpointResolver "" service region options =
      ({ URL := "" }, some { Err := none }) := by
  unfold endpointResolver
  rfl

theorem loadAwsSdkConfig_ok (region : String) (call : ConstructorCall) (u : String)
    (hu : ExportTo (call.Argument 0) = Except.ok u) :
    loadAwsSdkConfig (Except.ok region) call =
      Except.ok { Region := region, EndpointResolverWithOptions := endpointResolver u } := by
  unfold loadAwsSdkConfig
  rw [hu]
  rfl

/-- C11: when the configuration of the environment loads, `loadAwsSdkConfig`
returns a configuration whose endpoint resolver, for every service name,
region and options, answers `(Endpoint{URL: u}, nil)` when the constructor was
given a non-empty string `u`, and `(Endpoint{}, EndpointNotFoundError{})` when
it was given the empty string or no argument at all; the answer is the same
for every service and region. -/
theorem endpoint_resolver_follows_the_override (region : String) (call : ConstructorCall)
    (service reg : String) (options : List String) :
    ∃ cfg, loadAwsSdkConfig (Except.ok region) call = Except.ok cfg ∧
      (∀ u, call.Argument 0 = JSValue.string u → u ≠ "" →
        cfg.EndpointResolverWithOptions service reg options = ({ URL := u }, none)) ∧
      (call.Argument 0 = JSValue.string "" ∨ call.Arguments = [] →
        cfg.EndpointResolverWithOptions service reg options =
          ({ URL := "" }, some { Err := none })) ∧
      (∀ (service' reg' : String) (options' : List String),
        cfg.EndpointResolverWithOptions service' reg' options' =
          cfg.EndpointResolverWithOptions service reg options) := by
  rcases harg : call.Argument 0 with _ | v
  · refine ⟨_, loadAwsSdkConfig_ok region call "" (by rw [harg]; rfl), ?_, ?_, ?_⟩
    · intro u hu
      cases hu
    · intro _
      exact endpointResolver_empty service reg options
    · intro service' reg' options'
      rfl
  · refine ⟨_, loadAwsSdkConfig_ok region call v (by rw [harg]; rfl), ?_, ?_, ?_⟩
    · intro u hu hne
      cases hu
      exact endpointResolver_of_ne v hne service reg options
    · intro h
      rcases h with h | h
      · cases h
        exact endpointResolver_empty service reg options
      · rw [ConstructorCall.Argument, h] at harg
        cases harg
    · intro service' reg' options'
      rfl

/-- C11 at the inputs of `TestLoadAwsSdkConfig`: with the custom endpoint the
resolver answers that URL and no error for the service "kinesis"; with no
argument it answers the empty endpoint and `EndpointNotFoundError`. -/
theorem endpoint_resolver_follows_the_override_witness :
    (∃ cfg, loadAwsSdkConfig (Except.ok "us-west-2") customEndpointCall = Except.ok cfg ∧
      cfg.EndpointResolverWithOptions "kinesis" "us-west-2" [] =
        ({ URL := "http://localhost:4566" }, none)) ∧
    (∃ cfg, loadAwsSdkConfig (Except.ok "us-west-2") { Arguments := [] } = Except.ok cfg ∧
      cfg.EndpointResolverWithOptions "kinesis" "us-west-2" [] =
        ({ URL := "" }, some { Err := none })) :=
  by
  constructor
  · obtain ⟨cfg, h, h1, -⟩ := endpoint_resolver_follows_the_override "us-west-2"
      customEndpointCall "kinesis" "us-west-2" []
    exact ⟨cfg, h, h1 "http://localhost:4566" (by decide) (by decide)⟩
  · obtain ⟨cfg, h, -, h2, -⟩ := endpoint_resolver_follows_the_override "us-west-2"
      { Arguments := [] } "kinesis" "us-west-2" []
    exact ⟨cfg, h, h2 (Or.inr rfl)⟩

end Kinesis

/-! ## Lemmas on the bookkeeping of registered callbacks -/

namespace Kinesis

section Accounting

variable {ι σ ε : Type} (D : Decoder ι ε) (c : client σ ε)

theorem HandleCall.closure_promise (p : Nat) (h : HandleCall ε) :
    (h.closure p).promise = p := by
  cases h <;> rfl

/-- Taking the element at position `n` out of a list and putting it in front
rearranges the list. -/
theorem perm_cons_eraseIdx {α : Type} (l : List α) (n : Nat) (a : α)
    (h : l[n]? = some a) : l.Perm (a :: l.eraseIdx n) := by
  induction l generalizing n with
  | nil => simp at h
  | cons b l ih =>
    cases n with
    | zero =>
      simp only [List.getElem?_cons_zero, Option.some.injEq] at h
      subst h
      exact List.Perm.refl _
    | succ n =>
      simp only [List.getElem?_cons_succ] at h
      simp only [List.eraseIdx_cons_succ]
      exact ((ih n h).cons b).trans (List.Perm.swap a b _)

theorem lt_of_get_some {α : Type} {l : List α} {n : Nat} {a : α} (h : l[n]? = some a) :
    n < l.length := by
  rcases List.getElem?_eq_some_iff.mp h with ⟨hlt, -⟩
  exact hlt

/-- Settling a pending promise leaves one unsettled promise fewer. -/
theorem countP_set_settled (l : List (Promise ε)) (p : Nat) (s : Promise ε)
    (hp : l[p]? = some Promise.pending) (hs : s.isPending = false) :
    (l.set p s).countP Promise.isPending + 1 = l.countP Promise.isPending := by
  induction l generalizing p with
  | nil => simp at hp
  | cons a l ih =>
    cases p with
    | zero =>
      simp only [List.getElem?_cons_zero, Option.some.injEq] at hp
      subst hp
      have hpend : (Promise.pending : Promise ε).isPending = true := rfl
      simp [List.countP_cons, hs, hpend]
    | succ p =>
      simp only [List.getElem?_cons_succ] at hp
      simp only [List.set_cons_succ, List.countP_cons]
      have := ih p hp
      omega

theorem World.Accounted_init (s : σ) : (World.init s : World ι σ ε).Accounted := by
  refine ⟨rfl, List.nodup_nil, ?_, rfl⟩
  intro p hp
  cases hp

theorem World.Accounted_makeHandled (w : World ι σ ε) (g : Goroutine ι)
    (hg : g.promise = w.promises.length) (hw : w.Accounted) :
    World.Accounted { (AsyncClient.makeHandledPromise w).2 with
      goroutines := g :: (AsyncClient.makeHandledPromise w).2.goroutines } := by
  obtain ⟨hreg, hnd, hpend, hcount⟩ := hw
  have hfresh : g.promise ∉ w.owners := by
    intro hmem
    have := lt_of_get_some (hpend _ hmem)
    omega
  refine ⟨?_, ?_, ?_, ?_⟩
  · show w.loop.registeredCallbacks + 1 = (g :: w.goroutines).length
    rw [hreg]
    rfl
  · show (g.promise :: w.owners).Nodup
    exact List.nodup_cons.mpr ⟨hfresh, hnd⟩
  · intro p hp
    show (w.promises ++ [Promise.pending])[p]? = some Promise.pending
    have hp' : p ∈ g.promise :: w.owners := hp
    rcases List.mem_cons.mp hp' with h | h
    · rw [h, hg]
      exact List.getElem?_concat_length _ _
    · rw [List.getElem?_append_left (lt_of_get_some (hpend p h))]
      exact hpend p h
  · show (w.promises ++ [Promise.pending]).countP Promise.isPending =
      (g :: w.goroutines).length + w.loop.queue.length
    have hc : w.promises.countP Promise.isPending =
        w.goroutines.length + w.loop.queue.length := hcount
    simp only [List.countP_append, List.countP_cons, List.countP_nil, Promise.isPending,
      List.length_cons, hc]
    simp only [if_true]
    omega

theorem World.Accounted_runGoroutine (w : World ι σ ε) (n : Nat) (hw : w.Accounted) :
    (w.runGoroutine D c n).Accounted := by
  rcases hg : w.goroutines[n]? with _ | g
  · rw [World.runGoroutine_none D c w n hg]
    exact hw
  · obtain ⟨h, -, hrun⟩ := World.runGoroutine_eq D c w n g hg
    rw [hrun]
    obtain ⟨hreg, hnd, hpend, hcount⟩ := hw
    have hlt : n < w.goroutines.length := lt_of_get_some hg
    have hlen : (w.goroutines.eraseIdx n).length + 1 = w.goroutines.length := by
      rw [List.length_eraseIdx_of_lt hlt]
      omega
    have hperm : (World.callback (h.closure g.promise)
        { w with transport := (g.body D c w.transport).2,
                 goroutines := w.goroutines.eraseIdx n }).owners.Perm w.owners := by
      show ((w.goroutines.eraseIdx n).map Goroutine.promise ++
        (w.loop.queue ++ [h.closure g.promise]).map Callback.promise).Perm
          (w.goroutines.map Goroutine.promise ++ w.loop.queue.map Callback.promise)
      have h1 := ((perm_cons_eraseIdx w.goroutines n g hg).map Goroutine.promise).append_right
        (w.loop.queue.map Callback.promise)
      simp only [List.map_append, List.map_cons, List.map_nil, HandleCall.closure_promise,
        List.cons_append] at h1 ⊢
      refine List.Perm.trans ?_ h1.symm
      rw [← List.append_assoc]
      exact List.perm_append_singleton _ _
    refine ⟨?_, (hperm.nodup_iff).mpr hnd, ?_, ?_⟩
    · show w.loop.registeredCallbacks - 1 = (w.goroutines.eraseIdx n).length
      omega
    · intro p hp
      exact hpend p (hperm.mem_iff.mp hp)
    · show w.promises.countP Promise.isPending =
        (w.goroutines.eraseIdx n).length + (w.loop.queue ++ [h.closure g.promise]).length
      have hc : w.promises.countP Promise.isPending =
          w.goroutines.length + w.loop.queue.length := hcount
      simp only [List.length_append, List.length_singleton]
      omega

theorem World.Accounted_runCallback (w : World ι σ ε) (hw : w.Accounted) :
    w.runCallback.Accounted := by
  unfold World.runCallback
  rcases hq : w.loop.queue with _ | ⟨f, rest⟩
  · exact hw
  · obtain ⟨hreg, hnd, hpend, hcount⟩ := hw
    have hown : w.owners =
        w.goroutines.map Goroutine.promise ++ f.promise :: rest.map Callback.promise := by
      simp only [World.owners, hq, List.map_cons]
    rw [hown] at hnd hpend
    have hmid := List.nodup_middle.mp hnd
    obtain ⟨hnot, hnd'⟩ := List.nodup_cons.mp hmid
    have hfp : w.promises[f.promise]? = some Promise.pending :=
      hpend _ (List.mem_append_right _ (List.mem_cons_self _ _))
    have hc : w.promises.countP Promise.isPending =
        w.goroutines.length + w.loop.queue.length := hcount
    rw [hq] at hc
    simp only
    cases f with
    | resolve p i =>
      simp only [Callback.run, World.settle, hfp, Callback.promise] at hfp hnot ⊢
      refine ⟨hreg, hnd', ?_, ?_⟩
      · intro q hqm
        have hne : p ≠ q := fun h => hnot (h ▸ hqm)
        show (w.promises.set p (Promise.fulfilled i))[q]? = some Promise.pending
        rw [List.getElem?_set_ne hne]
        rcases List.mem_append.mp hqm with h | h
        · exact hpend q (List.mem_append_left _ h)
        · exact hpend q (List.mem_append_right _ (List.mem_cons_of_mem _ h))
      · show (w.promises.set p (Promise.fulfilled i)).countP Promise.isPending =
          w.goroutines.length + rest.length
        have := countP_set_settled w.promises p (Promise.fulfilled i) hfp rfl
        simp only [List.length_cons] at hc
        omega
    | reject p i =>
      simp only [Callback.run, World.settle, hfp, Callback.promise] at hfp hnot ⊢
      refine ⟨hreg, hnd', ?_, ?_⟩
      · intro q hqm
        have hne : p ≠ q := fun h => hnot (h ▸ hqm)
        show (w.promises.set p (Promise.rejected i))[q]? = some Promise.pending
        rw [List.getElem?_set_ne hne]
        rcases List.mem_append.mp hqm with h | h
        · exact hpend q (List.mem_append_left _ h)
        · exact hpend q (List.mem_append_right _ (List.mem_cons_of_mem _ h))
      · show (w.promises.set p (Promise.rejected i)).countP Promise.isPending =
          w.goroutines.length + rest.length
        have := countP_set_settled w.promises p (Promise.rejected i) hfp rfl
        simp only [List.length_cons] at hc
        omega

/-- Every reachable world keeps the bookkeeping. -/
theorem Reachable.accounted {s : σ} {w : World ι σ ε} (hw : Reachable D c s w) :
    w.Accounted := by
  induction hw with
  | init => exact World.Accounted_init s
  | putRecord x _ ih => exact World.Accounted_makeHandled _ _ rfl ih
  | putRecords x _ ih => exact World.Accounted_makeHandled _ _ rfl ih
  | goroutine n _ ih => exact World.Accounted_runGoroutine D c _ n ih
  | callback _ ih => exact World.Accounted_runCallback _ ih

end Accounting

end Kinesis

/-! ## Unsettled promises keep the event loop alive -/

namespace Kinesis

theorem World.runCallback_cons {ι σ ε : Type} (w : World ι σ ε) (f : Callback ε)
    (rest : List (Callback ε)) (hq : w.loop.queue = f :: rest) :
    w.runCallback.goroutines = w.goroutines ∧
    w.runCallback.loop.queue = rest ∧
    w.runCallback.loop.registeredCallbacks = w.loop.registeredCallbacks := by
  unfold World.runCallback
  rw [hq]
  simp only [Callback.run_goroutines, Callback.run_loop, and_self]

theorem World.finished_iff {ι σ ε : Type} (w : World ι σ ε) :
    w.finished = true ↔ w.loop.registeredCallbacks = 0 ∧ w.loop.queue = [] := by
  simp [World.finished, List.isEmpty_iff]

/-- C12 as stated fails: the registered callbacks alone do not count the
unsettled promises. In the world of the tests, once the goroutine of the one started call has run and
before the event loop takes its turn, no registered callback is outstanding,
yet the promise of the call is still pending (and the loop is not finished,
because the closure waits in its queue). -/
theorem registered_callbacks_fewer_than_unsettled_promises :
    Reachable mapstructure returnsSequenceNumber01 () helloWorldEnqueued ∧
    helloWorldEnqueued.loop.registeredCallbacks = 0 ∧
    helloWorldEnqueued.promises[0]? = some Promise.pending ∧
    helloWorldEnqueued.unsettled = 1 ∧
    helloWorldEnqueued.loop.registeredCallbacks ≠ helloWorldEnqueued.unsettled ∧
    helloWorldEnqueued.loop.queue.length = 1 ∧
    helloWorldEnqueued.finished = false :=
  ⟨Reachable.goroutine 0 (Reachable.putRecord helloWorldRecord Reachable.init),
    by decide, by decide, by decide, by decide, by decide, by decide⟩

/-- C12, amended: each call to `AsyncClient.PutRecord` or
`AsyncClient.PutRecords` registers exactly one callback before it returns. The
run of the call's goroutine uses that registration up and puts one closure in
the queue without settling anything; a turn of the event loop takes one
closure off the queue and settles one promise. Hence in every reachable world
the number of unsettled promises equals the number of outstanding registered
callbacks plus the number of closures waiting in the queue, and the event loop,
which is finished only when both are zero, is not finished while any promise
is unsettled. -/
theorem unsettled_promises_keep_the_event_loop_alive {ι σ ε : Type}
    (D : Decoder ι ε) (c : client σ ε) (s : σ) (w : World ι σ ε)
    (hw : Reachable D c s w) (x : ι) (n : Nat) (g : Goroutine ι) :
    ((AsyncClient.PutRecord x w).2.loop.registeredCallbacks =
        w.loop.registeredCallbacks + 1 ∧
      (AsyncClient.PutRecords x w).2.loop.registeredCallbacks =
        w.loop.registeredCallbacks + 1) ∧
    (w.goroutines[n]? = some g →
      (w.runGoroutine D c n).loop.registeredCallbacks + 1 = w.loop.registeredCallbacks ∧
      (w.runGoroutine D c n).loop.queue.length = w.loop.queue.length + 1 ∧
      (w.runGoroutine D c n).unsettled = w.unsettled) ∧
    (w.loop.queue ≠ [] →
      w.runCallback.loop.registeredCallbacks = w.loop.registeredCallbacks ∧
      w.runCallback.loop.queue.length + 1 = w.loop.queue.length ∧
      w.runCallback.unsettled + 1 = w.unsettled) ∧
    w.unsettled = w.loop.registeredCallbacks + w.loop.queue.length ∧
    (w.finished = true → w.unsettled = 0) ∧
    (∀ p : Nat, w.promises[p]? = some Promise.pending → w.finished = false) := by
  obtain ⟨hreg, -, -, hcount⟩ := Reachable.accounted D c hw
  have hinv : w.unsettled = w.loop.registeredCallbacks + w.loop.queue.length := by
    rw [hreg]
    exact hcount
  refine ⟨⟨rfl, rfl⟩, ?_, ?_, hinv, ?_, ?_⟩
  · intro hg
    obtain ⟨h, -, hrun⟩ := World.runGoroutine_eq D c w n g hg
    have hlt : n < w.goroutines.length := lt_of_get_some hg
    refine ⟨?_, ?_, ?_⟩
    · rw [hrun]
      show w.loop.registeredCallbacks - 1 + 1 = w.loop.registeredCallbacks
      omega
    · rw [hrun]
      show (w.loop.queue ++ [h.closure g.promise]).length = w.loop.queue.length + 1
      simp only [List.length_append, List.length_singleton]
    · unfold World.unsettled
      rw [World.runGoroutine_promises]
  · intro hne
    rcases hq : w.loop.queue with _ | ⟨f, rest⟩
    · exact absurd hq hne
    · obtain ⟨hg', hq', hr'⟩ := World.runCallback_cons w f rest hq
      obtain ⟨-, -, -, hcount'⟩ := World.Accounted_runCallback w (Reachable.accounted D c hw)
      rw [hg', hq'] at hcount'
      rw [hq] at hcount
      simp only [List.length_cons] at hcount
      refine ⟨hr', by rw [hq']; rfl, ?_⟩
      omega
  · intro hfin
    obtain ⟨h0, hq0⟩ := (World.finished_iff w).mp hfin
    rw [hinv, h0, hq0]
    rfl
  · intro p hp
    have hpos : 0 < w.unsettled := by
      unfold World.unsettled
      exact List.countP_pos_iff.mpr ⟨_, List.getElem?_mem hp, rfl⟩
    rcases hfin : w.finished with _ | _
    · rfl
    · obtain ⟨h0, hq0⟩ := (World.finished_iff w).mp hfin
      rw [hinv, h0, hq0] at hpos
      exact absurd hpos (Nat.lt_irrefl 0)

/-- C12, amended, in the world of the tests after the goroutine has run: the
one unsettled promise is matched by the one closure in the queue, and the
turn of the event loop that runs it leaves no promise unsettled. -/
theorem unsettled_promises_keep_the_event_loop_alive_witness :
    helloWorldEnqueued.unsettled =
      helloWorldEnqueued.loop.registeredCallbacks + helloWorldEnqueued.loop.queue.length ∧
    helloWorldEnqueued.runCallback.unsettled + 1 = helloWorldEnqueued.unsettled :=
  have h := unsettled_promises_keep_the_event_loop_alive mapstructure
    returnsSequenceNumber01 () helloWorldEnqueued
    (Reachable.goroutine 0 (Reachable.putRecord helloWorldRecord Reachable.init))
    helloWorldRecord 0 (Goroutine.putRecord 0 helloWorldRecord)
  ⟨h.2.2.2.1, (h.2.2.1 (by decide)).2.2⟩

end Kinesis
